import Mathlib

/-!
Verification of the play-event flattening engine of `pybaseball_live`
(`src/pybaseball_live/game.py`) against its specification.

The JSON game document is embedded as the inductive type `J`; Python
dictionary access (`d.get(k)`, `d.get(k, default)`), list indexing and
membership are embedded as `Except`-valued operations that fail exactly
where Python raises (attribute access on a non-mapping, index out of
range).  Output rows are association lists from field names to `RVal`,
where `RVal.nan` is the `np.nan` missing-value sentinel and `RVal.j J.null`
is Python `None`.
-/

set_option maxRecDepth 40000
set_option maxHeartbeats 1000000

/-- A JSON-like value as parsed from the remote API response. -/
inductive J where
  | null : J
  | b : Bool → J
  | i : Int → J
  | s : String → J
  | obj : List (String × J) → J
  | arr : List J → J

/-- A value stored in an output row: either a value taken from the
document (with `J.null` standing for Python `None`) or the `np.nan`
missing-value sentinel. -/
inductive RVal where
  | j : J → RVal
  | nan : RVal

/-- A row value is the missing-value marker when it is the `np.nan`
sentinel or Python `None`. -/
def isMissing : RVal → Bool
  | RVal.nan => true
  | RVal.j J.null => true
  | _ => false

/-- One flattened output row: field name to value, in insertion order. -/
abbrev Record := List (String × RVal)

/-- Association-list lookup with a default, mirroring `dict.get(k, d)`
on a mapping (first binding wins; Python dicts have unique keys). -/
def objGet (fs : List (String × J)) (k : String) (d : J) : J :=
  match fs.find? (fun p => p.1 == k) with
  | some p => p.2
  | none => d

/-- Python `v.get(k, d)`: defined on mappings, raises `AttributeError`
(modelled as `Except.error`) on any other value. -/
def pgetD (v : J) (k : String) (d : J) : Except Unit J :=
  match v with
  | J.obj fs => .ok (objGet fs k d)
  | _ => .error ()

/-- Python `v.get(k)` (default `None`). -/
def pget (v : J) (k : String) : Except Unit J :=
  pgetD v k J.null

/-- Python `v[n]` on a sequence; out of range or a non-sequence raises. -/
def pindex (v : J) (n : Nat) : Except Unit J :=
  match v with
  | J.arr xs =>
    match xs.get? n with
    | some x => .ok x
    | none => .error ()
  | _ => .error ()

/-- Python truthiness of a value. -/
def truthy : J → Bool
  | J.null => false
  | J.b x => x
  | J.i n => n != 0
  | J.s t => !(t == "")
  | J.obj fs => !fs.isEmpty
  | J.arr xs => !xs.isEmpty

/-- Python `v == n` for an integer literal `n` (booleans compare as 0/1;
values of other types compare unequal). -/
def jeqInt (v : J) (n : Int) : Bool :=
  match v with
  | J.i m => m == n
  | J.b x => (if x then (1 : Int) else 0) == n
  | _ => false

/-- Python `v == t` for a string literal `t`. -/
def jeqStr (v : J) (t : String) : Bool :=
  match v with
  | J.s u => u == t
  | _ => false

/-- Python `v in l` for a list of string literals `l`. -/
def jmemStr (v : J) (l : List String) : Bool :=
  l.any (fun t => jeqStr v t)

/-- Python `k in v`: key test on a mapping, membership on a sequence;
the remaining operand shapes are not produced by these documents and are
folded into the error case. -/
def hasKey (v : J) (k : String) : Except Unit Bool :=
  match v with
  | J.obj fs => .ok (fs.any (fun p => p.1 == k))
  | J.arr xs => .ok (xs.any (fun x => jeqStr x k))
  | _ => .error ()

/-- Python `{**d, k: val}` / `d.update({k: val})`: overwrite in place if
the key exists, else append. -/
def dictInsert (d : Record) (k : String) (v : RVal) : Record :=
  if d.any (fun p => p.1 == k) then
    d.map (fun p => if p.1 == k then (k, v) else p)
  else d ++ [(k, v)]

/-- Field lookup on an output row. -/
def recGet (r : Record) (k : String) : Option RVal :=
  (r.find? (fun p => p.1 == k)).map (fun p => p.2)

/-- The fixed swing-code set of `_extract_event_data` (game.py:109). -/
def swingList : List String := ["X", "F", "S", "D", "E", "T", "W"]

/-- The fixed whiff-code subset of `_extract_event_data` (game.py:110). -/
def whiffList : List String := ["S", "T", "W"]

/-- The batter/pitcher matchup entries of `_extract_event_data` /
`_extract_walk_data` (game.py:113-118, 164-169). -/
def matchupFields (matchup : J) : Except Unit Record := do
  let batter ← pgetD matchup "batter" (J.obj [])
  let batterId ← pget batter "id"
  let batterName ← pget batter "fullName"
  let batSide ← pgetD matchup "batSide" (J.obj [])
  let batterHand ← pget batSide "code"
  let pitcher ← pgetD matchup "pitcher" (J.obj [])
  let pitcherId ← pget pitcher "id"
  let pitcherName ← pget pitcher "fullName"
  let pitchHand ← pgetD matchup "pitchHand" (J.obj [])
  let pitcherHand ← pget pitchHand "code"
  pure [("batter_id", .j batterId), ("batter_name", .j batterName),
    ("batter_hand", .j batterHand), ("pitcher_id", .j pitcherId),
    ("pitcher_name", .j pitcherName), ("pitcher_hand", .j pitcherHand)]

/-- `_get_team_data` (game.py:243): the roster is looked up under the
play's own "game" key, not under the document handed to `_game_to_df`. -/
def getTeamData (about play : J) : Except Unit Record := do
  let game ← pgetD play "game" (J.obj [])
  let gameData ← pgetD game "gameData" (J.obj [])
  let isTopInning ← pget about "isTopInning"
  let teams ← pgetD gameData "teams" (J.obj [])
  let bt ← pgetD teams (if truthy isTopInning then "away" else "home") (J.obj [])
  let btAbbrev ← pget bt "abbreviation"
  let btId ← pget bt "id"
  let pt ← pgetD teams (if truthy isTopInning then "home" else "away") (J.obj [])
  let ptAbbrev ← pget pt "abbreviation"
  let ptId ← pget pt "id"
  pure [("batter_team", .j btAbbrev), ("batter_team_id", .j btId),
    ("pitcher_team", .j ptAbbrev), ("pitcher_team_id", .j ptId)]

/-- `_get_count_data` (game.py:272). -/
def getCountData (play event : J) (n : Nat) : Except Unit Record := do
  let playEvents ← pgetD play "playEvents" (J.arr [])
  let count ← pgetD event "count" (J.obj [])
  let prevCount ←
    if n == 0 then do
      let outs ← pget count "outs"
      pure (J.obj [("strikes", J.i 0), ("balls", J.i 0), ("outs", outs)])
    else do
      let prev ← pindex playEvents (n - 1)
      pgetD prev "count" (J.obj [])
  let strikes ← pget prevCount "strikes"
  let balls ← pget prevCount "balls"
  let outs ← pget prevCount "outs"
  let strikesAfter ← pget count "strikes"
  let ballsAfter ← pget count "balls"
  let outsAfter ← pget count "outs"
  pure [("strikes", .j strikes), ("balls", .j balls), ("outs", .j outs),
    ("strikes_after", .j strikesAfter), ("balls_after", .j ballsAfter),
    ("outs_after", .j outsAfter)]

/-- The details-derived entries of `_extract_event_data`
(game.py:121-134): description/code, the boolean flags, the derived
swing and whiff flags (missing marker when the call code is absent or
falsy, never `False`), and the pitch type block. -/
def detailsFields (details : J) : Except Unit Record := do
  let description ← pget details "description"
  let code ← pget details "code"
  let isInPlay ← pget details "isInPlay"
  let isStrike ← pget details "isStrike"
  let isBall ← pget details "isBall"
  let hasReview ← pget details "hasReview"
  let typeBlock ← pgetD details "type" (J.obj [])
  let pitchType ← pget typeBlock "code"
  let pitchDescription ← pget typeBlock "description"
  pure [("play_description", .j description), ("play_code", .j code),
    ("in_play", .j isInPlay), ("is_strike", .j isStrike),
    ("is_swing",
      if truthy code then .j (J.b (jmemStr code swingList)) else .nan),
    ("is_whiff",
      if truthy code then .j (J.b (jmemStr code whiffList)) else .nan),
    ("is_ball", .j isBall), ("is_review", .j hasReview),
    ("pitch_type", .j pitchType),
    ("pitch_description", .j pitchDescription)]

/-- `_get_pitch_data` (game.py:302). -/
def getPitchData (pitchData : J) : Except Unit Record := do
  let coordinates ← pgetD pitchData "coordinates" (J.obj [])
  let breaks ← pgetD pitchData "breaks" (J.obj [])
  let startSpeed ← pget pitchData "startSpeed"
  let endSpeed ← pget pitchData "endSpeed"
  let szTop ← pget pitchData "strikeZoneTop"
  let szBot ← pget pitchData "strikeZoneBottom"
  let x ← pget coordinates "x"
  let y ← pget coordinates "y"
  let ax ← pget coordinates "aX"
  let ay ← pget coordinates "aY"
  let az ← pget coordinates "aZ"
  let pfxx ← pget coordinates "pfxX"
  let pfxz ← pget coordinates "pfxZ"
  let px ← pget coordinates "pX"
  let pz ← pget coordinates "pZ"
  let vx0 ← pget coordinates "vX0"
  let vy0 ← pget coordinates "vY0"
  let vz0 ← pget coordinates "vZ0"
  let x0 ← pget coordinates "x0"
  let y0 ← pget coordinates "y0"
  let z0 ← pget coordinates "z0"
  let zone ← pget pitchData "zone"
  let typeConfidence ← pget pitchData "typeConfidence"
  let plateTime ← pget pitchData "plateTime"
  let extension0 ← pget pitchData "extension"
  let spinRate ← pget breaks "spinRate"
  let spinDirection ← pget breaks "spinDirection"
  let vb ← pget breaks "breakVertical"
  let ivb ← pget breaks "breakVerticalInduced"
  let hb ← pget breaks "breakHorizontal"
  pure [("start_speed", .j startSpeed), ("end_speed", .j endSpeed),
    ("sz_top", .j szTop), ("sz_bot", .j szBot), ("x", .j x), ("y", .j y),
    ("ax", .j ax), ("ay", .j ay), ("az", .j az), ("pfxx", .j pfxx),
    ("pfxz", .j pfxz), ("px", .j px), ("pz", .j pz), ("vx0", .j vx0),
    ("vy0", .j vy0), ("vz0", .j vz0), ("x0", .j x0), ("y0", .j y0),
    ("z0", .j z0), ("zone", .j zone), ("type_confidence", .j typeConfidence),
    ("plate_time", .j plateTime), ("extension", .j extension0),
    ("spin_rate", .j spinRate), ("spin_direction", .j spinDirection),
    ("vb", .j vb), ("ivb", .j ivb), ("hb", .j hb)]

/-- `_get_hit_data` (game.py:347). -/
def getHitData (hitData : J) : Except Unit Record := do
  let coordinates ← pgetD hitData "coordinates" (J.obj [])
  let launchSpeed ← pget hitData "launchSpeed"
  let launchAngle ← pget hitData "launchAngle"
  let launchDistance ← pget hitData "totalDistance"
  let launchLocation ← pget hitData "location"
  let trajectory ← pget hitData "trajectory"
  let hardness ← pget hitData "hardness"
  let hitX ← pget coordinates "coordX"
  let hitY ← pget coordinates "coordY"
  pure [("launch_speed", .j launchSpeed), ("launch_angle", .j launchAngle),
    ("launch_distance", .j launchDistance),
    ("launch_location", .j launchLocation), ("trajectory", .j trajectory),
    ("hardness", .j hardness), ("hit_x", .j hitX), ("hit_y", .j hitY)]

/-- `_get_ab_result` (game.py:371); `lastEventIndex` is computed by the
caller as `len(play_events) - 1`, an integer that is `-1` for an empty
sequence, so it is carried as an `Int`. -/
def getAbResult (play : J) (n : Nat) (lastEventIndex : Int) : Except Unit Record := do
  let result ← pgetD play "result" (J.obj [])
  if (n : Int) == lastEventIndex then do
    let typeAb ← pget result "type"
    let ev ← pget result "event"
    let evType ← pget result "eventType"
    let rbi ← pget result "rbi"
    let awayScore ← pget result "awayScore"
    let homeScore ← pget result "homeScore"
    let isOut ← pget result "isOut"
    pure [("type_ab", .j typeAb), ("event", .j ev), ("event_type", .j evType),
      ("rbi", .j rbi), ("away_score", .j awayScore),
      ("home_score", .j homeScore), ("is_out", .j isOut)]
  else
    pure [("type_ab", RVal.nan), ("event", RVal.nan),
      ("event_type", RVal.nan), ("rbi", RVal.nan), ("away_score", RVal.nan),
      ("home_score", RVal.nan), ("is_out", RVal.nan)]

/-- The trailing per-event entries of `_extract_event_data` /
`_extract_walk_data` (game.py:137-142, 173-178). -/
def eventTailFields (event : J) : Except Unit Record := do
  let indexPlay ← pget event "index"
  let playId ← pget event "playId"
  let startTime ← pget event "startTime"
  let endTime ← pget event "endTime"
  let isPitch ← pget event "isPitch"
  let typeType ← pget event "type"
  pure [("index_play", .j indexPlay), ("play_id", .j playId),
    ("start_time", .j startTime), ("end_time", .j endTime),
    ("is_pitch", .j isPitch), ("type_type", .j typeType)]

/-- `_extract_event_data` (game.py:92): one row for a pitch/call event. -/
def extractEventData (play event : J) (n : Nat) (playEvents : List J) : Except Unit Record := do
  let matchup ← pgetD play "matchup" (J.obj [])
  let about ← pgetD play "about" (J.obj [])
  let details ← pgetD event "details" (J.obj [])
  let mf ← matchupFields matchup
  let tf ← getTeamData about play
  let cf ← getCountData play event n
  let dsf ← detailsFields details
  let pitchData ← pgetD event "pitchData" (J.obj [])
  let pf ← getPitchData pitchData
  let hitData ← pgetD event "hitData" (J.obj [])
  let hf ← getHitData hitData
  let ef ← eventTailFields event
  let af ← getAbResult play n ((playEvents.length : Int) - 1)
  pure (mf ++ tf ++ cf ++ dsf ++ pf ++ hf ++ ef ++ af)

/-- The fixed list of fields `_extract_walk_data` fills with `np.nan`
(game.py:184-237). -/
def remainingFields : List String :=
  ["play_description", "play_code", "in_play", "is_strike", "is_swing",
   "is_whiff", "is_ball", "is_review", "pitch_type", "pitch_description",
   "ab_number", "start_speed", "end_speed", "sz_top", "sz_bot", "x", "y",
   "ax", "ay", "az", "pfxx", "pfxz", "px", "pz", "vx0", "vy0", "vz0",
   "x0", "y0", "z0", "zone", "type_confidence", "plate_time", "extension",
   "spin_rate", "spin_direction", "vb", "ivb", "hb", "launch_speed",
   "launch_angle", "launch_distance", "launch_location", "trajectory",
   "hardness", "hit_x", "hit_y", "type_ab", "rbi", "away_score",
   "home_score", "is_out"]

/-- `_extract_walk_data` (game.py:147): one row for a walk-by-count
event; the before and after count entries are both copied from the
event's own count, and `gameData` is accepted but unused, as in the
source. -/
def extractWalkData (play event gameData : J) : Except Unit Record := do
  let matchup ← pgetD play "matchup" (J.obj [])
  let about ← pgetD play "about" (J.obj [])
  let count ← pgetD event "count" (J.obj [])
  let mf ← matchupFields matchup
  let tf ← getTeamData about play
  let strikes ← pget count "strikes"
  let balls ← pget count "balls"
  let outs ← pget count "outs"
  let ef ← eventTailFields event
  let result ← pgetD play "result" (J.obj [])
  let ev ← pget result "event"
  let evType ← pget result "eventType"
  let base : Record := mf ++ tf ++
    [("strikes", .j strikes), ("balls", .j balls), ("outs", .j outs),
     ("strikes_after", .j strikes), ("balls_after", .j balls),
     ("outs_after", .j outs)] ++ ef ++
    [("event", .j ev), ("event_type", .j evType)]
  pure (remainingFields.foldl (fun d k => dictInsert d k RVal.nan) base)

/-- The per-event classification of `_extract_play_data` (game.py:80-87):
pitch/call test first (with Python short-circuit `or`), then the
walk-by-count test, else the event is skipped. -/
def classifyStep (play gameData event : J) (n : Nat) (playEvents : List J) : Except Unit (Option Record) := do
  let isPitch ← pget event "isPitch"
  let isPitchOrCall ←
    if truthy isPitch then pure true
    else do
      let details ← pgetD event "details" (J.obj [])
      hasKey details "call"
  if isPitchOrCall then do
    let r ← extractEventData play event n playEvents
    pure (some r)
  else do
    let count ← pgetD event "count" (J.obj [])
    let balls ← pget count "balls"
    if jeqInt balls 4 then do
      let r ← extractWalkData play event gameData
      pure (some r)
    else
      pure none

/-- The enumerate loop of `_extract_play_data` over the tail of the
event sequence starting at index `n`. -/
def playLoopAux (play gameData : J) (playEvents : List J) : List J → Nat → Except Unit (List Record)
  | [], _ => pure []
  | e :: rest, n => do
    let r? ← classifyStep play gameData e n playEvents
    let tail ← playLoopAux play gameData playEvents rest (n + 1)
    pure (r?.toList ++ tail)

/-- `_extract_play_data` (game.py:66). -/
def extractPlayData (play gameData : J) : Except Unit (List Record) := do
  let pe ← pgetD play "playEvents" (J.arr [])
  match pe with
  | J.arr es => playLoopAux play gameData es es 0
  | _ => .error ()

/-- The per-play flat-map of the comprehension in `_game_to_df`. -/
def playsLoop (gameData : J) : List J → Except Unit (List Record)
  | [] => pure []
  | p :: rest => do
    let rs ← extractPlayData p gameData
    let tail ← playsLoop gameData rest
    pure (rs ++ tail)

/-- `_game_to_df` (game.py:43): the flatten operation for one game
document; each row is extended with `game_id` and `game_date`. -/
def gameToDf (gameData : J) : Except Unit (List Record) := do
  let gameId ← pget gameData "gamePk"
  let gd ← pgetD gameData "gameData" (J.obj [])
  let dt ← pgetD gd "datetime" (J.obj [])
  let gameDate ← pget dt "officialDate"
  let ld ← pgetD gameData "liveData" (J.obj [])
  let plays ← pgetD ld "plays" (J.obj [])
  let ap ← pgetD plays "allPlays" (J.arr [])
  match ap with
  | J.arr allPlays => do
    let rows ← playsLoop gameData allPlays
    pure (rows.map (fun r =>
      dictInsert (dictInsert r "game_id" (.j gameId)) "game_date" (.j gameDate)))
  | _ => .error ()

/-- One fetch-and-flatten task (the inner `_game` of `games`,
game.py:25): the transport step either yields a parsed document or
fails (non-200 status raises `BadResponseCode`); flattening a malformed
document then fails inside `_game_to_df`. -/
def gameTask (fetch : Int → Except String J) (gameId : Int) : Except String (Int × List Record) :=
  match fetch gameId with
  | .error e => .error e
  | .ok doc =>
    match gameToDf doc with
    | .ok df => .ok (gameId, df)
    | .error _ => .error "error while flattening game document"

/-- The orchestrator `games` (game.py:14): one task per id; a failed
task is logged (collected here as a failure record) and omitted from
the success mapping, and the collection loop itself never raises.
Thread-pool completion order is nondeterministic, so the model takes
the completion order as an explicit parameter. -/
def gamesStep (fetch : Int → Except String J)
    (acc : List (Int × List Record) × List (Int × String)) (gameId : Int) :
    List (Int × List Record) × List (Int × String) :=
  match gameTask fetch gameId with
  | .ok (g, df) => (acc.1 ++ [(g, df)], acc.2)
  | .error e => (acc.1, acc.2 ++ [(gameId, e)])

def gamesOrchestrator (fetch : Int → Except String J) (order : List Int) : List (Int × List Record) × List (Int × String) :=
  order.foldl (gamesStep fetch) ([], [])

section Lemmas

/-- Decomposition of a successful `Except` bind. -/
theorem except_bind_ok {ε α β : Type} (m : Except ε α) (f : α → Except ε β) (b : β) :
    (m >>= f = .ok b) ↔ ∃ a, m = .ok a ∧ f a = .ok b := by
  cases m with
  | ok a => simp [Bind.bind, Except.bind]
  | error e => simp [Bind.bind, Except.bind]

/-- A successful `pure` in `Except`. -/
theorem except_pure_ok {ε α : Type} (a b : α) :
    ((pure a : Except ε α) = .ok b) ↔ a = b := by
  simp [pure, Except.pure]

theorem recGet_append (a b : Record) (k : String) :
    recGet (a ++ b) k = ((recGet a k).orElse fun _ => recGet b k) := by
  simp [recGet, List.find?_append]
  cases List.find? (fun p => p.1 == k) a <;> simp [Option.orElse]

theorem find?_map_replace (d : Record) (k : String) (v : RVal) (k' : String)
    (h : (k' == k) = false) :
    (d.map (fun p => if p.1 == k then (k, v) else p)).find? (fun p => p.1 == k')
      = d.find? (fun p => p.1 == k') := by
  have hkk' : (k == k') = false := by
    simp only [beq_eq_false_iff_ne] at h ⊢
    exact fun hh => h hh.symm
  induction d with
  | nil => simp
  | cons p rest ih =>
    by_cases hpb : (p.1 == k) = true
    · have hif : (if (p.1 == k) = true then (k, v) else p) = (k, v) := if_pos hpb
      have hpk : p.1 = k := by simpa using hpb
      have hpk' : (p.1 == k') = false := by rw [hpk]; exact hkk'
      simp only [List.map_cons, hif, List.find?_cons, hkk', hpk']
      exact ih
    · have hif : (if (p.1 == k) = true then (k, v) else p) = p := if_neg hpb
      simp only [List.map_cons, hif, List.find?_cons]
      cases hq : p.1 == k'
      · simp only [hq]
        exact ih
      · simp only [hq]

theorem find?_map_replace_self (d : Record) (k : String) (v : RVal)
    (h : d.any (fun p => p.1 == k) = true) :
    (d.map (fun p => if p.1 == k then (k, v) else p)).find? (fun p => p.1 == k)
      = some (k, v) := by
  induction d with
  | nil => simp at h
  | cons p rest ih =>
    by_cases hpb : (p.1 == k) = true
    · have hif : (if (p.1 == k) = true then (k, v) else p) = (k, v) := if_pos hpb
      rw [List.map_cons, hif, List.find?_cons]
      simp
    · have hpb' : (p.1 == k) = false := Bool.eq_false_iff.mpr hpb
      have hif : (if (p.1 == k) = true then (k, v) else p) = p := if_neg hpb
      simp only [List.any_cons, hpb', Bool.false_or] at h
      rw [List.map_cons, hif, List.find?_cons, hpb']
      exact ih h

theorem dictInsert_pos (d : Record) (k : String) (v : RVal)
    (h : d.any (fun p => p.1 == k) = true) :
    dictInsert d k v = d.map (fun p => if p.1 == k then (k, v) else p) := by
  simp [dictInsert, h]

theorem dictInsert_neg (d : Record) (k : String) (v : RVal)
    (h : d.any (fun p => p.1 == k) = false) :
    dictInsert d k v = d ++ [(k, v)] := by
  simp [dictInsert, h]

theorem recGet_dictInsert_self (d : Record) (k : String) (v : RVal) :
    recGet (dictInsert d k v) k = some v := by
  by_cases hd : d.any (fun q => q.1 == k) = true
  · rw [dictInsert_pos d k v hd]
    unfold recGet
    rw [find?_map_replace_self d k v hd]
    rfl
  · have hd' : d.any (fun q => q.1 == k) = false := Bool.eq_false_iff.mpr hd
    have hfind : d.find? (fun q => q.1 == k) = none := by
      rw [List.find?_eq_none]
      intro p hp hcon
      have hany : d.any (fun q => q.1 == k) = true := List.any_eq_true.mpr ⟨p, hp, hcon⟩
      rw [hd'] at hany
      exact Bool.false_ne_true hany
    rw [dictInsert_neg d k v hd']
    unfold recGet
    rw [List.find?_append, hfind]
    simp

theorem recGet_dictInsert_other (d : Record) (k : String) (v : RVal) (k' : String)
    (h : (k' == k) = false) :
    recGet (dictInsert d k v) k' = recGet d k' := by
  have hkk : (k == k') = false := by
    simp only [beq_eq_false_iff_ne] at h ⊢
    exact fun hh => h hh.symm
  by_cases hd : d.any (fun q => q.1 == k) = true
  · rw [dictInsert_pos d k v hd]
    unfold recGet
    rw [find?_map_replace d k v k' h]
  · have hd' : d.any (fun q => q.1 == k) = false := Bool.eq_false_iff.mpr hd
    rw [dictInsert_neg d k v hd']
    unfold recGet
    rw [List.find?_append]
    cases hf : d.find? (fun q => q.1 == k') <;> simp [hf, List.find?_cons, hkk, Option.orElse]

/-- Folding `dictInsert` of the sentinel over keys yields the sentinel at
any key that is in the list or already held the sentinel. -/
theorem recGet_foldl_insert_mem (ks : List String) (d : Record) (k : String)
    (h : recGet d k = some RVal.nan ∨ k ∈ ks) :
    recGet (ks.foldl (fun d' k' => dictInsert d' k' RVal.nan) d) k = some RVal.nan := by
  induction ks generalizing d with
  | nil => simpa using h.resolve_right (by simp)
  | cons x rest ih =>
    simp only [List.foldl_cons]
    by_cases hx : (k == x) = true
    · have hxk : k = x := by simpa using hx
      refine ih (dictInsert d x RVal.nan) (Or.inl ?_)
      rw [hxk]; exact recGet_dictInsert_self d x RVal.nan
    · have hx' : (k == x) = false := by simpa using hx
      refine ih (dictInsert d x RVal.nan) ?_
      rcases h with h1 | h2
      · exact Or.inl ((recGet_dictInsert_other d x RVal.nan k hx').symm ▸ h1)
      · rcases List.mem_cons.mp h2 with h3 | h3
        · exact absurd h3 (by simpa using hx')
        · exact Or.inr h3

/-- Folding `dictInsert` over keys not containing `k` leaves the lookup
of `k` unchanged. -/
theorem recGet_foldl_insert_other (ks : List String) (d : Record) (k : String)
    (h : ks.all (fun x => !(k == x)) = true) :
    recGet (ks.foldl (fun d' k' => dictInsert d' k' RVal.nan) d) k = recGet d k := by
  induction ks generalizing d with
  | nil => simp
  | cons x rest ih =>
    simp only [List.all_cons, Bool.and_eq_true, Bool.not_eq_true'] at h
    simp only [List.foldl_cons]
    rw [ih (dictInsert d x RVal.nan) (by simpa using h.2)]
    exact recGet_dictInsert_other d x RVal.nan k h.1

end Lemmas

section ShapeLemmas

/-- A successful `matchupFields` run yields exactly the six matchup
entries. -/
theorem matchupFields_shape (matchup : J) (mf : Record)
    (h : matchupFields matchup = .ok mf) :
    ∃ v1 v2 v3 v4 v5 v6, mf =
      [("batter_id", .j v1), ("batter_name", .j v2), ("batter_hand", .j v3),
       ("pitcher_id", .j v4), ("pitcher_name", .j v5), ("pitcher_hand", .j v6)] := by
  unfold matchupFields at h
  simp only [except_bind_ok, except_pure_ok] at h
  obtain ⟨b1, _, v1, _, v2, _, b2, _, v3, _, b3, _, v4, _, v5, _, b4, _, v6, _, hr⟩ := h
  exact ⟨v1, v2, v3, v4, v5, v6, hr.symm⟩

/-- A successful `getTeamData` run yields exactly the four team
entries. -/
theorem getTeamData_shape (about play : J) (tf : Record)
    (h : getTeamData about play = .ok tf) :
    ∃ v1 v2 v3 v4, tf =
      [("batter_team", .j v1), ("batter_team_id", .j v2),
       ("pitcher_team", .j v3), ("pitcher_team_id", .j v4)] := by
  unfold getTeamData at h
  simp only [except_bind_ok, except_pure_ok] at h
  obtain ⟨g, _, gd, _, it, _, tm, _, bt, _, v1, _, v2, _, pt, _, v3, _, v4, _, hr⟩ := h
  exact ⟨v1, v2, v3, v4, hr.symm⟩

/-- A successful `eventTailFields` run yields exactly the six trailing
entries. -/
theorem eventTailFields_shape (event : J) (ef : Record)
    (h : eventTailFields event = .ok ef) :
    ∃ v1 v2 v3 v4 v5 v6, ef =
      [("index_play", .j v1), ("play_id", .j v2), ("start_time", .j v3),
       ("end_time", .j v4), ("is_pitch", .j v5), ("type_type", .j v6)] := by
  unfold eventTailFields at h
  simp only [except_bind_ok, except_pure_ok] at h
  obtain ⟨v1, _, v2, _, v3, _, v4, _, v5, _, v6, _, hr⟩ := h
  exact ⟨v1, v2, v3, v4, v5, v6, hr.symm⟩

end ShapeLemmas

/-- A successful `detailsFields` run: the call code is read from the
details block and the swing/whiff entries are derived from it. -/
theorem detailsFields_shape (details : J) (dsf : Record)
    (h : detailsFields details = .ok dsf) :
    ∃ desc code inPlay isStrike isBall hasRev pt pd,
      pget details "code" = .ok code ∧ dsf =
      [("play_description", .j desc), ("play_code", .j code),
       ("in_play", .j inPlay), ("is_strike", .j isStrike),
       ("is_swing", if truthy code then .j (J.b (jmemStr code swingList)) else .nan),
       ("is_whiff", if truthy code then .j (J.b (jmemStr code whiffList)) else .nan),
       ("is_ball", .j isBall), ("is_review", .j hasRev),
       ("pitch_type", .j pt), ("pitch_description", .j pd)] := by
  unfold detailsFields at h
  simp only [except_bind_ok, except_pure_ok] at h
  obtain ⟨desc, _, code, hcode, inPlay, _, isStrike, _, isBall, _, hasRev, _,
    tb, _, pt, _, pd, _, hr⟩ := h
  exact ⟨desc, code, inPlay, isStrike, isBall, hasRev, pt, pd, hcode, hr.symm⟩

/-- A successful `getPitchData` run yields exactly the 28 pitch
measurement entries. -/
theorem getPitchData_shape (pitchData : J) (pf : Record)
    (h : getPitchData pitchData = .ok pf) :
    ∃ v1 v2 v3 v4 v5 v6 v7 v8 v9 v10 v11 v12 v13 v14 v15 v16 v17 v18 v19
      v20 v21 v22 v23 v24 v25 v26 v27 v28, pf =
      [("start_speed", .j v1), ("end_speed", .j v2), ("sz_top", .j v3),
       ("sz_bot", .j v4), ("x", .j v5), ("y", .j v6), ("ax", .j v7),
       ("ay", .j v8), ("az", .j v9), ("pfxx", .j v10), ("pfxz", .j v11),
       ("px", .j v12), ("pz", .j v13), ("vx0", .j v14), ("vy0", .j v15),
       ("vz0", .j v16), ("x0", .j v17), ("y0", .j v18), ("z0", .j v19),
       ("zone", .j v20), ("type_confidence", .j v21), ("plate_time", .j v22),
       ("extension", .j v23), ("spin_rate", .j v24),
       ("spin_direction", .j v25), ("vb", .j v26), ("ivb", .j v27),
       ("hb", .j v28)] := by
  unfold getPitchData at h
  simp only [except_bind_ok, except_pure_ok] at h
  obtain ⟨c, _, bk, _, v1, _, v2, _, v3, _, v4, _, v5, _, v6, _, v7, _, v8, _,
    v9, _, v10, _, v11, _, v12, _, v13, _, v14, _, v15, _, v16, _, v17, _,
    v18, _, v19, _, v20, _, v21, _, v22, _, v23, _, v24, _, v25, _, v26, _,
    v27, _, v28, _, hr⟩ := h
  exact ⟨v1, v2, v3, v4, v5, v6, v7, v8, v9, v10, v11, v12, v13, v14, v15,
    v16, v17, v18, v19, v20, v21, v22, v23, v24, v25, v26, v27, v28, hr.symm⟩

/-- A successful `getHitData` run yields exactly the eight hit
measurement entries. -/
theorem getHitData_shape (hitData : J) (hf : Record)
    (h : getHitData hitData = .ok hf) :
    ∃ v1 v2 v3 v4 v5 v6 v7 v8, hf =
      [("launch_speed", .j v1), ("launch_angle", .j v2),
       ("launch_distance", .j v3), ("launch_location", .j v4),
       ("trajectory", .j v5), ("hardness", .j v6), ("hit_x", .j v7),
       ("hit_y", .j v8)] := by
  unfold getHitData at h
  simp only [except_bind_ok, except_pure_ok] at h
  obtain ⟨c, _, v1, _, v2, _, v3, _, v4, _, v5, _, v6, _, v7, _, v8, _, hr⟩ := h
  exact ⟨v1, v2, v3, v4, v5, v6, v7, v8, hr.symm⟩

/-- A successful `getCountData` run: the after entries come from the
event's own count; the before entries come from the synthesized
zero-strikes/zero-balls/current-outs baseline at index 0 and from the
previous event's count otherwise. -/
theorem getCountData_shape (play event : J) (n : Nat) (cf : Record)
    (h : getCountData play event n = .ok cf) :
    ∃ playEvents count s b o sa ba oa,
      pgetD play "playEvents" (J.arr []) = .ok playEvents ∧
      pgetD event "count" (J.obj []) = .ok count ∧
      pget count "strikes" = .ok sa ∧ pget count "balls" = .ok ba ∧
      pget count "outs" = .ok oa ∧
      cf = [("strikes", .j s), ("balls", .j b), ("outs", .j o),
        ("strikes_after", .j sa), ("balls_after", .j ba),
        ("outs_after", .j oa)] ∧
      (n = 0 → s = J.i 0 ∧ b = J.i 0 ∧ o = oa) ∧
      (n ≠ 0 → ∃ prev prevCount, pindex playEvents (n - 1) = .ok prev ∧
        pgetD prev "count" (J.obj []) = .ok prevCount ∧
        pget prevCount "strikes" = .ok s ∧ pget prevCount "balls" = .ok b ∧
        pget prevCount "outs" = .ok o) := by
  unfold getCountData at h
  by_cases hn : n = 0
  · subst hn
    simp only [beq_self_eq_true, if_true, except_bind_ok, except_pure_ok] at h
    obtain ⟨playEvents, hpe, count, hcount, outs0, houts0, prevCount, hpc,
      s, hs, b, hb, o, ho, sa, hsa, ba, hba, oa, hoa, hr⟩ := h
    subst hpc
    refine ⟨playEvents, count, s, b, o, sa, ba, oa, hpe, hcount, hsa, hba, hoa,
      hr.symm, fun _ => ?_, fun hcon => absurd rfl hcon⟩
    have hs' : s = J.i 0 := by
      simp [pget, pgetD, objGet, List.find?_cons] at hs
      exact hs.symm
    have hb' : b = J.i 0 := by
      simp [pget, pgetD, objGet, List.find?_cons] at hb
      exact hb.symm
    have ho' : o = outs0 := by
      simp [pget, pgetD, objGet, List.find?_cons] at ho
      exact ho.symm
    have hoa' : oa = outs0 := by
      rw [houts0] at hoa
      exact (Except.ok.inj hoa).symm
    exact ⟨hs', hb', ho'.trans hoa'.symm⟩
  · have hnb : (n == 0) = false := by simpa using hn
    simp only [hnb, Bool.false_eq_true, if_false, except_bind_ok,
      except_pure_ok] at h
    obtain ⟨playEvents, hpe, count, hcount, prev, hprev1, prevCount, hprev2,
      s, hs, b, hb, o, ho, sa, hsa, ba, hba, oa, hoa, hr⟩ := h
    exact ⟨playEvents, count, s, b, o, sa, ba, oa, hpe, hcount, hsa, hba, hoa,
      hr.symm, fun hcon => absurd hcon hn,
      fun _ => ⟨prev, prevCount, hprev1, hprev2, hs, hb, ho⟩⟩

/-- A successful `getAbResult` run: the seven result entries come from
the play's result exactly at the last index and are the sentinel
otherwise. -/
theorem getAbResult_shape (play : J) (n : Nat) (last : Int) (af : Record)
    (h : getAbResult play n last = .ok af) :
    (((n : Int) == last) = true → ∃ result v1 v2 v3 v4 v5 v6 v7,
      pgetD play "result" (J.obj []) = .ok result ∧
      pget result "type" = .ok v1 ∧ pget result "event" = .ok v2 ∧
      pget result "eventType" = .ok v3 ∧ pget result "rbi" = .ok v4 ∧
      pget result "awayScore" = .ok v5 ∧ pget result "homeScore" = .ok v6 ∧
      pget result "isOut" = .ok v7 ∧
      af = [("type_ab", .j v1), ("event", .j v2), ("event_type", .j v3),
        ("rbi", .j v4), ("away_score", .j v5), ("home_score", .j v6),
        ("is_out", .j v7)]) ∧
    (((n : Int) == last) = false →
      af = [("type_ab", RVal.nan), ("event", RVal.nan),
        ("event_type", RVal.nan), ("rbi", RVal.nan), ("away_score", RVal.nan),
        ("home_score", RVal.nan), ("is_out", RVal.nan)]) := by
  unfold getAbResult at h
  simp only [except_bind_ok] at h
  obtain ⟨result, hres, h⟩ := h
  by_cases hc : ((n : Int) == last) = true
  · rw [hc] at h
    simp only [if_true, except_bind_ok, except_pure_ok] at h
    obtain ⟨v1, h1, v2, h2, v3, h3, v4, h4, v5, h5, v6, h6, v7, h7, hr⟩ := h
    refine ⟨fun _ => ⟨result, v1, v2, v3, v4, v5, v6, v7, hres, h1, h2, h3,
      h4, h5, h6, h7, hr.symm⟩, fun hcon => ?_⟩
    rw [hc] at hcon
    exact absurd hcon (by simp)
  · have hc' : ((n : Int) == last) = false := Bool.eq_false_iff.mpr hc
    rw [hc'] at h
    simp only [Bool.false_eq_true, if_false, except_pure_ok] at h
    exact ⟨fun hcon => absurd hcon (by simp [hc']), fun _ => h.symm⟩

/-- Decomposition of a successful `extractWalkData` run. -/
theorem extractWalkData_parts (play event gd : J) (r : Record)
    (h : extractWalkData play event gd = .ok r) :
    ∃ matchup about count mf tf strikes balls outs ef result ev evType,
      pgetD play "matchup" (J.obj []) = .ok matchup ∧
      pgetD play "about" (J.obj []) = .ok about ∧
      pgetD event "count" (J.obj []) = .ok count ∧
      matchupFields matchup = .ok mf ∧
      getTeamData about play = .ok tf ∧
      pget count "strikes" = .ok strikes ∧
      pget count "balls" = .ok balls ∧
      pget count "outs" = .ok outs ∧
      eventTailFields event = .ok ef ∧
      pgetD play "result" (J.obj []) = .ok result ∧
      pget result "event" = .ok ev ∧
      pget result "eventType" = .ok evType ∧
      r = remainingFields.foldl (fun d k => dictInsert d k RVal.nan)
        (mf ++ tf ++
          [("strikes", .j strikes), ("balls", .j balls), ("outs", .j outs),
           ("strikes_after", .j strikes), ("balls_after", .j balls),
           ("outs_after", .j outs)] ++ ef ++
          [("event", .j ev), ("event_type", .j evType)]) := by
  unfold extractWalkData at h
  simp only [except_bind_ok, except_pure_ok] at h
  obtain ⟨matchup, h1, about, h2, count, h3, mf, h4, tf, h5, strikes, h6,
    balls, h7, outs, h8, ef, h9, result, h10, ev, h11, evType, h12, hr⟩ := h
  exact ⟨matchup, about, count, mf, tf, strikes, balls, outs, ef, result,
    ev, evType, h1, h2, h3, h4, h5, h6, h7, h8, h9, h10, h11, h12, hr.symm⟩

/-- Decomposition of a successful `extractEventData` run. -/
theorem extractEventData_parts (play event : J) (n : Nat) (playEvents : List J)
    (r : Record) (h : extractEventData play event n playEvents = .ok r) :
    ∃ matchup about details mf tf cf dsf pitchData pf hitData hf ef af,
      pgetD play "matchup" (J.obj []) = .ok matchup ∧
      pgetD play "about" (J.obj []) = .ok about ∧
      pgetD event "details" (J.obj []) = .ok details ∧
      matchupFields matchup = .ok mf ∧
      getTeamData about play = .ok tf ∧
      getCountData play event n = .ok cf ∧
      detailsFields details = .ok dsf ∧
      pgetD event "pitchData" (J.obj []) = .ok pitchData ∧
      getPitchData pitchData = .ok pf ∧
      pgetD event "hitData" (J.obj []) = .ok hitData ∧
      getHitData hitData = .ok hf ∧
      eventTailFields event = .ok ef ∧
      getAbResult play n ((playEvents.length : Int) - 1) = .ok af ∧
      r = mf ++ tf ++ cf ++ dsf ++ pf ++ hf ++ ef ++ af := by
  unfold extractEventData at h
  simp only [except_bind_ok, except_pure_ok] at h
  obtain ⟨matchup, h1, about, h2, details, h3, mf, h4, tf, h5, cf, h6, dsf, h7,
    pitchData, h8, pf, h9, hitData, h10, hf, h11, ef, h12, af, h13, hr⟩ := h
  exact ⟨matchup, about, details, mf, tf, cf, dsf, pitchData, pf, hitData, hf,
    ef, af, h1, h2, h3, h4, h5, h6, h7, h8, h9, h10, h11, h12, h13, hr.symm⟩

/-- C10: for every PlayEvent classified as walk-by-count, the emitted
record's count-before fields equal its count-after fields: strikes,
balls and outs are all copied from the walk event's own count,
independent of the event's index and of any preceding event's count
(`_extract_walk_data` takes no index and reads only the event's own
count). -/
theorem walk_count_before_equals_after (play event gd : J) (r : Record)
    (h : extractWalkData play event gd = .ok r) :
    ∃ count s b o, pgetD event "count" (J.obj []) = .ok count ∧
      pget count "strikes" = .ok s ∧ pget count "balls" = .ok b ∧
      pget count "outs" = .ok o ∧
      recGet r "strikes" = some (.j s) ∧
      recGet r "strikes_after" = some (.j s) ∧
      recGet r "balls" = some (.j b) ∧
      recGet r "balls_after" = some (.j b) ∧
      recGet r "outs" = some (.j o) ∧
      recGet r "outs_after" = some (.j o) := by
  obtain ⟨matchup, about, count, mf, tf, strikes, balls, outs, ef, result,
    ev, evType, _, _, h3, h4, h5, h6, h7, h8, h9, _, _, _, hr⟩ :=
    extractWalkData_parts play event gd r h
  obtain ⟨m1, m2, m3, m4, m5, m6, hmf⟩ := matchupFields_shape matchup mf h4
  obtain ⟨t1, t2, t3, t4, htf⟩ := getTeamData_shape about play tf h5
  obtain ⟨e1, e2, e3, e4, e5, e6, hef⟩ := eventTailFields_shape event ef h9
  subst hmf htf hef
  refine ⟨count, strikes, balls, outs, h3, h6, h7, h8, ?_, ?_, ?_, ?_, ?_, ?_⟩
  · rw [hr, recGet_foldl_insert_other remainingFields _ "strikes" (by decide)]
    simp [recGet, List.find?_cons]
  · rw [hr, recGet_foldl_insert_other remainingFields _ "strikes_after" (by decide)]
    simp [recGet, List.find?_cons]
  · rw [hr, recGet_foldl_insert_other remainingFields _ "balls" (by decide)]
    simp [recGet, List.find?_cons]
  · rw [hr, recGet_foldl_insert_other remainingFields _ "balls_after" (by decide)]
    simp [recGet, List.find?_cons]
  · rw [hr, recGet_foldl_insert_other remainingFields _ "outs" (by decide)]
    simp [recGet, List.find?_cons]
  · rw [hr, recGet_foldl_insert_other remainingFields _ "outs_after" (by decide)]
    simp [recGet, List.find?_cons]

theorem pindex_arr (xs : List J) (n : Nat) :
    pindex (J.arr xs) n =
      (match xs.get? n with | some x => .ok x | none => .error ()) := rfl

/-- C1: for every pitch/call-classified PlayEvent at index `n`, the
emitted record's count-before fields (strikes, balls, outs) equal the
count-after of `PlayEvents[n-1]` when `n > 0` — the previous event's
count is used purely by sequence position, whether or not that event
produced a record — and when `n = 0` they equal the synthesized
baseline of zero strikes, zero balls, and the event's own outs value. -/
theorem count_before_from_previous_event (play event : J) (es : List J) (n : Nat) (r : Record)
    (hpe : pgetD play "playEvents" (J.arr []) = .ok (J.arr es))
    (h : extractEventData play event n es = .ok r) :
    (0 < n → ∃ prev prevCount s b o, es.get? (n - 1) = some prev ∧
      pgetD prev "count" (J.obj []) = .ok prevCount ∧
      pget prevCount "strikes" = .ok s ∧ pget prevCount "balls" = .ok b ∧
      pget prevCount "outs" = .ok o ∧
      recGet r "strikes" = some (.j s) ∧ recGet r "balls" = some (.j b) ∧
      recGet r "outs" = some (.j o)) ∧
    (n = 0 → ∃ count o, pgetD event "count" (J.obj []) = .ok count ∧
      pget count "outs" = .ok o ∧
      recGet r "strikes" = some (.j (J.i 0)) ∧
      recGet r "balls" = some (.j (J.i 0)) ∧
      recGet r "outs" = some (.j o)) := by
  obtain ⟨matchup, about, details, mf, tf, cf, dsf, pitchData, pf, hitData, hf,
    ef, af, h1, h2, h3, h4, h5, h6, h7, h8, h9, h10, h11, h12, h13, hr⟩ :=
    extractEventData_parts play event n es r h
  obtain ⟨m1, m2, m3, m4, m5, m6, hmf⟩ := matchupFields_shape matchup mf h4
  obtain ⟨t1, t2, t3, t4, htf⟩ := getTeamData_shape about play tf h5
  obtain ⟨pe0, count, s, b, o, sa, ba, oa, hpe0, hcount, hsa, hba, hoa, hcf,
    hn0, hnpos⟩ := getCountData_shape play event n cf h6
  rw [hpe] at hpe0
  have hpe0' : pe0 = J.arr es := (Except.ok.inj hpe0).symm
  subst hpe0' hmf htf hcf
  constructor
  · intro hn
    obtain ⟨prev, prevCount, hprev1, hprev2, hs, hb, ho⟩ :=
      hnpos (Nat.pos_iff_ne_zero.mp hn)
    have hget : es.get? (n - 1) = some prev := by
      rw [pindex_arr] at hprev1
      cases hx : es.get? (n - 1) with
      | none =>
        rw [hx] at hprev1
        exact absurd hprev1 (by simp)
      | some x =>
        rw [hx] at hprev1
        have hprev1' : (Except.ok x : Except Unit J) = Except.ok prev := hprev1
        have hxp : x = prev := Except.ok.inj hprev1'
        exact congrArg some hxp
    refine ⟨prev, prevCount, s, b, o, hget, hprev2, hs, hb, ho, ?_, ?_, ?_⟩ <;>
      rw [hr] <;> simp [recGet, List.find?_cons]
  · intro hn
    obtain ⟨hs0, hb0, ho0⟩ := hn0 hn
    refine ⟨count, oa, hcount, hoa, ?_, ?_, ?_⟩ <;>
      rw [hr] <;> simp [recGet, List.find?_cons, hs0, hb0, ho0]

theorem jmemStr_eq_true_iff (v : J) (l : List String) :
    jmemStr v l = true ↔ ∃ t, t ∈ l ∧ v = J.s t := by
  unfold jmemStr
  rw [List.any_eq_true]
  constructor
  · rintro ⟨t, ht, he⟩
    cases v with
    | s u =>
      simp [jeqStr] at he
      exact ⟨t, ht, by rw [he]⟩
    | null => simp [jeqStr] at he
    | b x => simp [jeqStr] at he
    | i x => simp [jeqStr] at he
    | obj fs => simp [jeqStr] at he
    | arr xs => simp [jeqStr] at he
  · rintro ⟨t, ht, he⟩
    subst he
    exact ⟨t, ht, by simp [jeqStr]⟩

/-- C3: for every pitch/call-classified PlayEvent, the seven at-bat
result fields (type_ab, event, event_type, rbi, away_score, home_score,
is_out) are taken from the Play's result exactly when the event's index
equals the last index of the Play's event sequence, and are the
missing-value marker on every record of the same Play produced by an
earlier index. -/
theorem ab_result_only_on_last_event (play event : J) (n : Nat) (es : List J) (r : Record)
    (hlt : n < es.length)
    (h : extractEventData play event n es = .ok r) :
    (n = es.length - 1 → ∃ result v1 v2 v3 v4 v5 v6 v7,
      pgetD play "result" (J.obj []) = .ok result ∧
      pget result "type" = .ok v1 ∧ pget result "event" = .ok v2 ∧
      pget result "eventType" = .ok v3 ∧ pget result "rbi" = .ok v4 ∧
      pget result "awayScore" = .ok v5 ∧ pget result "homeScore" = .ok v6 ∧
      pget result "isOut" = .ok v7 ∧
      recGet r "type_ab" = some (.j v1) ∧ recGet r "event" = some (.j v2) ∧
      recGet r "event_type" = some (.j v3) ∧ recGet r "rbi" = some (.j v4) ∧
      recGet r "away_score" = some (.j v5) ∧
      recGet r "home_score" = some (.j v6) ∧
      recGet r "is_out" = some (.j v7)) ∧
    (n ≠ es.length - 1 →
      recGet r "type_ab" = some RVal.nan ∧ recGet r "event" = some RVal.nan ∧
      recGet r "event_type" = some RVal.nan ∧ recGet r "rbi" = some RVal.nan ∧
      recGet r "away_score" = some RVal.nan ∧
      recGet r "home_score" = some RVal.nan ∧
      recGet r "is_out" = some RVal.nan) := by
  obtain ⟨matchup, about, details, mf, tf, cf, dsf, pitchData, pf, hitData, hf,
    ef, af, h1, h2, h3, h4, h5, h6, h7, h8, h9, h10, h11, h12, h13, hr⟩ :=
    extractEventData_parts play event n es r h
  obtain ⟨m1, m2, m3, m4, m5, m6, hmf⟩ := matchupFields_shape matchup mf h4
  obtain ⟨t1, t2, t3, t4, htf⟩ := getTeamData_shape about play tf h5
  obtain ⟨pe0, count, cs, cb, co, csa, cba, coa, _, _, _, _, _, hcf, _, _⟩ :=
    getCountData_shape play event n cf h6
  obtain ⟨d1, d2, d3, d4, d5, d6, d7, d8, _, hdsf⟩ :=
    detailsFields_shape details dsf h7
  obtain ⟨p1, p2, p3, p4, p5, p6, p7, p8, p9, p10, p11, p12, p13, p14, p15,
    p16, p17, p18, p19, p20, p21, p22, p23, p24, p25, p26, p27, p28, hpf⟩ :=
    getPitchData_shape pitchData pf h9
  obtain ⟨q1, q2, q3, q4, q5, q6, q7, q8, hhf⟩ := getHitData_shape hitData hf h11
  obtain ⟨e1, e2, e3, e4, e5, e6, hef⟩ := eventTailFields_shape event ef h12
  obtain ⟨habLast, habOther⟩ :=
    getAbResult_shape play n ((es.length : Int) - 1) af h13
  subst hmf htf hcf hdsf hpf hhf hef
  constructor
  · intro hn
    have hc : ((n : Int) == (es.length : Int) - 1) = true := by
      refine beq_iff_eq.mpr ?_
      omega
    obtain ⟨result, v1, v2, v3, v4, v5, v6, v7, hres, w1, w2, w3, w4, w5, w6,
      w7, haf⟩ := habLast hc
    refine ⟨result, v1, v2, v3, v4, v5, v6, v7, hres, w1, w2, w3, w4, w5, w6,
      w7, ?_, ?_, ?_, ?_, ?_, ?_, ?_⟩ <;>
      rw [hr, haf] <;> simp [recGet, List.find?_cons]
  · intro hn
    have hc : ((n : Int) == (es.length : Int) - 1) = false := by
      refine beq_eq_false_iff_ne.mpr ?_
      intro hcon
      omega
    have haf := habOther hc
    refine ⟨?_, ?_, ?_, ?_, ?_, ?_, ?_⟩ <;>
      rw [hr, haf] <;> simp [recGet, List.find?_cons]

/-- C9: for every pitch/call-classified record, `is_swing` is true iff
the call code is in {X,F,S,D,E,T,W}, `is_whiff` is true iff the call
code is in {S,T,W}, and both fields are the missing-value marker (not
false) when no call code is present. -/
theorem swing_whiff_flag_derivation (play event : J) (n : Nat) (es : List J) (r : Record)
    (h : extractEventData play event n es = .ok r) :
    ∃ details code, pgetD event "details" (J.obj []) = .ok details ∧
      pget details "code" = .ok code ∧
      ((recGet r "is_swing" = some (.j (J.b true))) ↔
        ∃ t, t ∈ swingList ∧ code = J.s t) ∧
      ((recGet r "is_whiff" = some (.j (J.b true))) ↔
        ∃ t, t ∈ whiffList ∧ code = J.s t) ∧
      (code = J.null →
        recGet r "is_swing" = some RVal.nan ∧
        recGet r "is_whiff" = some RVal.nan) := by
  obtain ⟨matchup, about, details, mf, tf, cf, dsf, pitchData, pf, hitData, hf,
    ef, af, h1, h2, h3, h4, h5, h6, h7, h8, h9, h10, h11, h12, h13, hr⟩ :=
    extractEventData_parts play event n es r h
  obtain ⟨m1, m2, m3, m4, m5, m6, hmf⟩ := matchupFields_shape matchup mf h4
  obtain ⟨t1, t2, t3, t4, htf⟩ := getTeamData_shape about play tf h5
  obtain ⟨pe0, count, cs, cb, co, csa, cba, coa, _, _, _, _, _, hcf, _, _⟩ :=
    getCountData_shape play event n cf h6
  obtain ⟨d1, code, d3, d4, d5, d6, d7, d8, hcode, hdsf⟩ :=
    detailsFields_shape details dsf h7
  subst hmf htf hcf hdsf
  have hsw : recGet r "is_swing" =
      some (if truthy code then RVal.j (J.b (jmemStr code swingList)) else RVal.nan) := by
    rw [hr]
    simp [recGet, List.find?_cons]
  have hwh : recGet r "is_whiff" =
      some (if truthy code then RVal.j (J.b (jmemStr code whiffList)) else RVal.nan) := by
    rw [hr]
    simp [recGet, List.find?_cons]
  refine ⟨details, code, h3, hcode, ?_, ?_, ?_⟩
  · rw [hsw]
    by_cases ht : truthy code = true
    · rw [if_pos ht]
      rw [show (some (RVal.j (J.b (jmemStr code swingList))) =
          some (RVal.j (J.b true))) ↔ jmemStr code swingList = true by simp]
      rw [jmemStr_eq_true_iff]
    · rw [if_neg ht]
      constructor
      · intro hcon
        simp at hcon
      · rintro ⟨t, htl, hcode'⟩
        subst hcode'
        have : truthy (J.s t) = true := by
          have hne : ¬(t == "") = true := by
            intro hempty
            have ht0 : t = "" := by simpa using hempty
            subst ht0
            revert htl
            decide
          simp [truthy]
          simpa using hne
        exact absurd this ht
  · rw [hwh]
    by_cases ht : truthy code = true
    · rw [if_pos ht]
      rw [show (some (RVal.j (J.b (jmemStr code whiffList))) =
          some (RVal.j (J.b true))) ↔ jmemStr code whiffList = true by simp]
      rw [jmemStr_eq_true_iff]
    · rw [if_neg ht]
      constructor
      · intro hcon
        simp at hcon
      · rintro ⟨t, htl, hcode'⟩
        subst hcode'
        have : truthy (J.s t) = true := by
          have hne : ¬(t == "") = true := by
            intro hempty
            have ht0 : t = "" := by simpa using hempty
            subst ht0
            revert htl
            decide
          simp [truthy]
          simpa using hne
        exact absurd this ht
  · intro hnull
    subst hnull
    have ht : truthy J.null = false := rfl
    constructor
    · rw [hsw, ht]
      simp
    · rw [hwh, ht]
      simp

/-- C2 (amended): for every PlayEvent classified as walk-by-count, the
flattener emits one record whose count-before entries (strikes, balls,
outs) are copied from the event's own count — hence equal to its
count-after entries — regardless of the event's index; whose `event`
and `event_type` fields are populated from the Play's result while the
other at-bat result fields (type_ab, rbi, away_score, home_score,
is_out) are the missing-value marker; and whose every
pitch/hit/details-derived field in the fixed list (including
`ab_number`) is the missing-value marker. -/
theorem walk_record_field_population (play event gd : J) (r : Record)
    (h : extractWalkData play event gd = .ok r) :
    (∃ count s b o, pgetD event "count" (J.obj []) = .ok count ∧
      pget count "strikes" = .ok s ∧ pget count "balls" = .ok b ∧
      pget count "outs" = .ok o ∧
      recGet r "strikes" = some (.j s) ∧ recGet r "balls" = some (.j b) ∧
      recGet r "outs" = some (.j o) ∧
      recGet r "strikes_after" = some (.j s) ∧
      recGet r "balls_after" = some (.j b) ∧
      recGet r "outs_after" = some (.j o)) ∧
    (∃ result ev evType, pgetD play "result" (J.obj []) = .ok result ∧
      pget result "event" = .ok ev ∧ pget result "eventType" = .ok evType ∧
      recGet r "event" = some (.j ev) ∧
      recGet r "event_type" = some (.j evType)) ∧
    (∀ k ∈ remainingFields, recGet r k = some RVal.nan) := by
  obtain ⟨matchup, about, count, mf, tf, strikes, balls, outs, ef, result,
    ev, evType, _, _, h3, h4, h5, h6, h7, h8, h9, h10, h11, h12, hr⟩ :=
    extractWalkData_parts play event gd r h
  obtain ⟨m1, m2, m3, m4, m5, m6, hmf⟩ := matchupFields_shape matchup mf h4
  obtain ⟨t1, t2, t3, t4, htf⟩ := getTeamData_shape about play tf h5
  obtain ⟨e1, e2, e3, e4, e5, e6, hef⟩ := eventTailFields_shape event ef h9
  subst hmf htf hef
  refine ⟨⟨count, strikes, balls, outs, h3, h6, h7, h8, ?_, ?_, ?_, ?_, ?_, ?_⟩,
    ⟨result, ev, evType, h10, h11, h12, ?_, ?_⟩, ?_⟩
  · rw [hr, recGet_foldl_insert_other remainingFields _ "strikes" (by decide)]
    simp [recGet, List.find?_cons]
  · rw [hr, recGet_foldl_insert_other remainingFields _ "balls" (by decide)]
    simp [recGet, List.find?_cons]
  · rw [hr, recGet_foldl_insert_other remainingFields _ "outs" (by decide)]
    simp [recGet, List.find?_cons]
  · rw [hr, recGet_foldl_insert_other remainingFields _ "strikes_after" (by decide)]
    simp [recGet, List.find?_cons]
  · rw [hr, recGet_foldl_insert_other remainingFields _ "balls_after" (by decide)]
    simp [recGet, List.find?_cons]
  · rw [hr, recGet_foldl_insert_other remainingFields _ "outs_after" (by decide)]
    simp [recGet, List.find?_cons]
  · rw [hr, recGet_foldl_insert_other remainingFields _ "event" (by decide)]
    simp [recGet, List.find?_cons]
  · rw [hr, recGet_foldl_insert_other remainingFields _ "event_type" (by decide)]
    simp [recGet, List.find?_cons]
  · intro k hk
    rw [hr]
    exact recGet_foldl_insert_mem remainingFields _ k (Or.inr hk)

def c2Event : J := J.obj
  [("count", J.obj [("balls", J.i 4), ("strikes", J.i 1), ("outs", J.i 2)]),
   ("index", J.i 0), ("type", J.s "action")]

def c2Play : J := J.obj
  [("result", J.obj [("type", J.s "atBat"), ("event", J.s "Walk"),
     ("eventType", J.s "walk"), ("rbi", J.i 0), ("awayScore", J.i 0),
     ("homeScore", J.i 0), ("isOut", J.b false)]),
   ("about", J.obj [("isTopInning", J.b true)]),
   ("playEvents", J.arr [c2Event])]

def c2Rec : Record :=
  match extractWalkData c2Play c2Event (J.obj []) with
  | .ok r => r
  | .error _ => []

/-- C2 (counterexample): a walk-by-count event at index 0 with count
strikes 1, balls 4, outs 2 in a play whose result block carries
type "atBat" — the claim asserts count-before = (0 strikes, 0 balls)
and a fully populated result block, but the emitted record carries
strikes 1, balls 4, and the missing-value marker in type_ab, rbi and
is_out. -/
theorem walk_record_claim_counterexample :
    extractWalkData c2Play c2Event (J.obj []) = .ok c2Rec ∧
    recGet c2Rec "strikes" = some (RVal.j (J.i 1)) ∧
    recGet c2Rec "strikes" ≠ some (RVal.j (J.i 0)) ∧
    recGet c2Rec "balls" = some (RVal.j (J.i 4)) ∧
    recGet c2Rec "type_ab" = some RVal.nan ∧
    recGet c2Rec "rbi" = some RVal.nan ∧
    recGet c2Rec "is_out" = some RVal.nan ∧
    (do
      let res ← pgetD c2Play "result" (J.obj [])
      pget res "type") = Except.ok (J.s "atBat") := by
  refine ⟨rfl, rfl, ?_, rfl, rfl, rfl, rfl, rfl⟩
  rw [show recGet c2Rec "strikes" = some (RVal.j (J.i 1)) from rfl]
  simp

theorem any_map_fst (d : Record) (k : String) :
    (d.map Prod.fst).any (fun y => y == k) = d.any (fun p => p.1 == k) := by
  induction d with
  | nil => rfl
  | cons p rest ih => simp [List.any_cons, ih]

theorem foldl_insert_keys (ks : List String) (d : Record)
    (hd : ks.all (fun k => !((d.map Prod.fst).any (fun x => x == k))) = true)
    (hnd : ks.Nodup) :
    (ks.foldl (fun d' k' => dictInsert d' k' RVal.nan) d).map Prod.fst
      = d.map Prod.fst ++ ks := by
  induction ks generalizing d with
  | nil => simp
  | cons x rest ih =>
    simp only [List.all_cons, Bool.and_eq_true] at hd
    obtain ⟨hx, hrest⟩ := hd
    have hdx : d.any (fun p => p.1 == x) = false := by
      rw [← any_map_fst d x]
      simpa using hx
    rw [List.foldl_cons, dictInsert_neg d x RVal.nan hdx]
    have hxrest : x ∉ rest := (List.nodup_cons.mp hnd).1
    have hrest' : rest.all (fun k =>
        !(((d ++ [(x, RVal.nan)]).map Prod.fst).any (fun y => y == k))) = true := by
      rw [List.all_eq_true] at hrest ⊢
      intro k hk
      have h1 := hrest k hk
      have hxk : (x == k) = false := by
        refine beq_eq_false_iff_ne.mpr ?_
        intro hcon
        subst hcon
        exact hxrest hk
      simp only [List.map_append, List.any_append, List.map_cons, List.map_nil,
        List.any_cons, List.any_nil, hxk, Bool.or_false, Bool.false_or] at h1 ⊢
      exact h1
    rw [ih (d ++ [(x, RVal.nan)]) hrest' (List.nodup_cons.mp hnd).2]
    simp

def pitchRecordKeys : List String :=
  ["batter_id", "batter_name", "batter_hand", "pitcher_id", "pitcher_name",
   "pitcher_hand", "batter_team", "batter_team_id", "pitcher_team",
   "pitcher_team_id", "strikes", "balls", "outs", "strikes_after",
   "balls_after", "outs_after", "play_description", "play_code", "in_play",
   "is_strike", "is_swing", "is_whiff", "is_ball", "is_review", "pitch_type",
   "pitch_description", "start_speed", "end_speed", "sz_top", "sz_bot", "x",
   "y", "ax", "ay", "az", "pfxx", "pfxz", "px", "pz", "vx0", "vy0", "vz0",
   "x0", "y0", "z0", "zone", "type_confidence", "plate_time", "extension",
   "spin_rate", "spin_direction", "vb", "ivb", "hb", "launch_speed",
   "launch_angle", "launch_distance", "launch_location", "trajectory",
   "hardness", "hit_x", "hit_y", "index_play", "play_id", "start_time",
   "end_time", "is_pitch", "type_type", "type_ab", "event", "event_type",
   "rbi", "away_score", "home_score", "is_out"]

def walkRecordKeys : List String :=
  ["batter_id", "batter_name", "batter_hand", "pitcher_id", "pitcher_name",
   "pitcher_hand", "batter_team", "batter_team_id", "pitcher_team",
   "pitcher_team_id", "strikes", "balls", "outs", "strikes_after",
   "balls_after", "outs_after", "index_play", "play_id", "start_time",
   "end_time", "is_pitch", "type_type", "event", "event_type"] ++
  remainingFields

/-- C7 (amended): every pitch/call-shaped record carries the fixed
75-name key list and every walk-shaped record the fixed 76-name key
list; the walk key set is exactly the pitch key set plus the extra
field `ab_number`, so the two shapes share a common key space only up
to that one extra walk-side field. -/
theorem record_key_sets (play event : J) (n : Nat) (es : List J)
    (play2 event2 gd2 : J) (r1 r2 : Record)
    (h1 : extractEventData play event n es = .ok r1)
    (h2 : extractWalkData play2 event2 gd2 = .ok r2) :
    r1.map Prod.fst = pitchRecordKeys ∧
    r2.map Prod.fst = walkRecordKeys ∧
    walkRecordKeys.Perm (pitchRecordKeys ++ ["ab_number"]) := by
  obtain ⟨matchup, about, details, mf, tf, cf, dsf, pitchData, pf, hitData, hf,
    ef, af, g1, g2, g3, g4, g5, g6, g7, g8, g9, g10, g11, g12, g13, hr1⟩ :=
    extractEventData_parts play event n es r1 h1
  obtain ⟨m1, m2, m3, m4, m5, m6, hmf⟩ := matchupFields_shape matchup mf g4
  obtain ⟨t1, t2, t3, t4, htf⟩ := getTeamData_shape about play tf g5
  obtain ⟨pe0, count0, cs, cb, co, csa, cba, coa, _, _, _, _, _, hcf, _, _⟩ :=
    getCountData_shape play event n cf g6
  obtain ⟨d1, code, d3, d4, d5, d6, d7, d8, _, hdsf⟩ :=
    detailsFields_shape details dsf g7
  obtain ⟨p1, p2, p3, p4, p5, p6, p7, p8, p9, p10, p11, p12, p13, p14, p15,
    p16, p17, p18, p19, p20, p21, p22, p23, p24, p25, p26, p27, p28, hpf⟩ :=
    getPitchData_shape pitchData pf g9
  obtain ⟨q1, q2, q3, q4, q5, q6, q7, q8, hhf⟩ := getHitData_shape hitData hf g11
  obtain ⟨e1, e2, e3, e4, e5, e6, hef⟩ := eventTailFields_shape event ef g12
  obtain ⟨habLast, habOther⟩ :=
    getAbResult_shape play n ((es.length : Int) - 1) af g13
  obtain ⟨matchup2, about2, count2, mf2, tf2, ws, wb, wo, ef2, result2,
    wev, wevType, _, _, _, w4, w5, _, _, _, w9, _, _, _, hr2⟩ :=
    extractWalkData_parts play2 event2 gd2 r2 h2
  obtain ⟨n1, n2, n3, n4, n5, n6, hmf2⟩ := matchupFields_shape matchup2 mf2 w4
  obtain ⟨u1, u2, u3, u4, htf2⟩ := getTeamData_shape about2 play2 tf2 w5
  obtain ⟨f1, f2, f3, f4, f5, f6, hef2⟩ := eventTailFields_shape event2 ef2 w9
  subst hmf htf hcf hdsf hpf hhf hef hmf2 htf2 hef2
  refine ⟨?_, ?_, by decide⟩
  · by_cases hc : ((n : Int) == (es.length : Int) - 1) = true
    · obtain ⟨result, v1, v2, v3, v4, v5, v6, v7, _, _, _, _, _, _, _, _,
        haf⟩ := habLast hc
      rw [hr1, haf]
      simp [pitchRecordKeys]
    · have haf := habOther (Bool.eq_false_iff.mpr hc)
      rw [hr1, haf]
      simp [pitchRecordKeys]
  · rw [hr2, foldl_insert_keys remainingFields _ (by simp [remainingFields]) (by decide)]
    simp [walkRecordKeys, remainingFields]

def c7PitchEvent : J := J.obj
  [("isPitch", J.b true),
   ("count", J.obj [("balls", J.i 3), ("strikes", J.i 0), ("outs", J.i 0)]),
   ("details", J.obj [("call", J.obj [("code", J.s "B")]), ("code", J.s "B")]),
   ("index", J.i 0)]

def c7WalkEvent : J := J.obj
  [("count", J.obj [("balls", J.i 4), ("strikes", J.i 0), ("outs", J.i 0)]),
   ("index", J.i 1), ("type", J.s "action")]

def c7Play : J := J.obj
  [("result", J.obj [("type", J.s "atBat"), ("event", J.s "Walk"),
     ("eventType", J.s "walk")]),
   ("about", J.obj [("isTopInning", J.b false)]),
   ("playEvents", J.arr [c7PitchEvent, c7WalkEvent])]

def c7Doc : J := J.obj
  [("gamePk", J.i 7),
   ("liveData", J.obj [("plays", J.obj [("allPlays", J.arr [c7Play])])])]

def c7Rows : List Record :=
  match gameToDf c7Doc with
  | .ok rs => rs
  | .error _ => []

/-- C7 (counterexample): one flatten call over a document holding a
pitch event followed by a walk-by-count event yields two records whose
key sets differ — the walk record carries `ab_number` (with the
missing-value marker) while the pitch record has no such key. -/
theorem record_key_space_counterexample :
    c7Rows.length = 2 ∧
    recGet (c7Rows.getD 1 []) "ab_number" = some RVal.nan ∧
    recGet (c7Rows.getD 0 []) "ab_number" = none := by
  refine ⟨rfl, rfl, rfl⟩

/-- C4 (amended): flatten raises exactly at Python attribute errors —
in particular it raises whenever the GameDocument itself is not a
mapping, and the error propagates to the caller — but a mapping missing
the top-level plays container is NOT an error: it yields an empty
output sequence. -/
theorem flatten_raises_only_for_nonmapping :
    (∀ d : J, (∀ fs, d ≠ J.obj fs) → gameToDf d = .error ()) ∧
    gameToDf (J.obj []) = .ok [] ∧
    gameToDf (J.obj [("gamePk", J.i 1)]) = .ok [] := by
  refine ⟨?_, rfl, rfl⟩
  intro d hd
  cases d with
  | null => rfl
  | b x => rfl
  | i x => rfl
  | s x => rfl
  | obj fs => exact absurd rfl (hd fs)
  | arr xs => rfl

/-- C4 (counterexample): a GameDocument that is a mapping but lacks the
top-level plays container flattens to the empty sequence instead of
raising, contradicting the claim that such a document triggers an
error. -/
theorem flatten_missing_plays_counterexample : gameToDf (J.obj [("gamePk", J.i 1)]) = .ok [] := rfl


def c6Event : J := J.obj
  [("details", J.obj [("call", J.obj [("code", J.s "B")]), ("code", J.s "B"),
     ("description", J.s "Ball")]),
   ("count", J.obj [("balls", J.i 1), ("strikes", J.i 0), ("outs", J.i 0)]),
   ("index", J.i 0), ("isPitch", J.b true)]

def c6Play : J := J.obj
  [("result", J.obj [("type", J.s "atBat"), ("event", J.s "Single"),
     ("eventType", J.s "single")]),
   ("about", J.obj [("isTopInning", J.b true)]),
   ("matchup", J.obj [("batter", J.obj [("id", J.i 123)]),
     ("pitcher", J.obj [("id", J.i 456)])]),
   ("playEvents", J.arr [c6Event])]

def c6Doc : J := J.obj
  [("gamePk", J.i 12345),
   ("gameData", J.obj [("datetime", J.obj [("officialDate", J.s "2023-07-01")]),
     ("teams", J.obj [("away", J.obj [("abbreviation", J.s "NYY"), ("id", J.i 1)]),
       ("home", J.obj [("abbreviation", J.s "BOS"), ("id", J.i 2)])])]),
   ("liveData", J.obj [("plays", J.obj [("allPlays", J.arr [c6Play])])])]

def c6Rows : List Record :=
  match gameToDf c6Doc with
  | .ok rs => rs
  | .error _ => []

def c6PlayWithGame : J := J.obj
  [("game", J.obj [("gameData", J.obj [("teams", J.obj
     [("away", J.obj [("abbreviation", J.s "NYY"), ("id", J.i 1)]),
      ("home", J.obj [("abbreviation", J.s "BOS"), ("id", J.i 2)])])])])]

def c6Tf : Record :=
  match getTeamData (J.obj [("isTopInning", J.b true)]) c6PlayWithGame with
  | .ok tf => tf
  | .error _ => []

/-- C6 (code evaluated at the failing input): for the repo's own
fixture-shaped document — roster present under the document's
`gameData.teams`, play without a `game` key, top of inning — the away
abbreviation "NYY" is reachable from the document, yet all four team
fields of the emitted record are Python `None`, because
`_get_team_data` looks the roster up under the play's own `game` key
(which real API plays do not carry); when a play artificially carries
such a `game` subtree the half-inning attribution itself is correct
(top of inning: batter team away "NYY", pitcher team home "BOS"). -/
theorem team_lookup_ignores_document_roster :
    (do
      let gd ← pgetD c6Doc "gameData" (J.obj [])
      let tm ← pgetD gd "teams" (J.obj [])
      let aw ← pgetD tm "away" (J.obj [])
      pget aw "abbreviation") = Except.ok (J.s "NYY") ∧
    c6Rows.length = 1 ∧
    recGet (c6Rows.getD 0 []) "batter_team" = some (RVal.j J.null) ∧
    recGet (c6Rows.getD 0 []) "batter_team_id" = some (RVal.j J.null) ∧
    recGet (c6Rows.getD 0 []) "pitcher_team" = some (RVal.j J.null) ∧
    recGet (c6Rows.getD 0 []) "pitcher_team_id" = some (RVal.j J.null) ∧
    getTeamData (J.obj [("isTopInning", J.b true)]) c6PlayWithGame = .ok c6Tf ∧
    recGet c6Tf "batter_team" = some (RVal.j (J.s "NYY")) ∧
    recGet c6Tf "pitcher_team" = some (RVal.j (J.s "BOS")) := by
  exact ⟨rfl, rfl, rfl, rfl, rfl, rfl, rfl, rfl, rfl⟩

/-- A successful fetch-and-flatten task is keyed by its own game id. -/
theorem gameTask_ok_fst (fetch : Int → Except String J) (j : Int)
    (p : Int × List Record) (h : gameTask fetch j = .ok p) : p.1 = j := by
  unfold gameTask at h
  cases hf : fetch j with
  | error e => rw [hf] at h; exact absurd h (by simp)
  | ok doc =>
    rw [hf] at h
    have h2 : (match gameToDf doc with
      | Except.ok df => Except.ok (j, df)
      | Except.error _ =>
        Except.error "error while flattening game document") = Except.ok p := h
    cases hg : gameToDf doc with
    | ok df =>
      rw [hg] at h2
      have h3 : (Except.ok (j, df) : Except String (Int × List Record)) = .ok p := h2
      rw [← Except.ok.inj h3]
    | error e =>
      rw [hg] at h2
      exact absurd h2 (by simp)

theorem gamesStep_ok (fetch : Int → Except String J) (acc : List (Int × List Record) × List (Int × String))
    (gameId g : Int) (df : List Record) (h : gameTask fetch gameId = .ok (g, df)) :
    gamesStep fetch acc gameId = (acc.1 ++ [(g, df)], acc.2) := by
  unfold gamesStep
  rw [h]

theorem gamesStep_error (fetch : Int → Except String J) (acc : List (Int × List Record) × List (Int × String))
    (gameId : Int) (e : String) (h : gameTask fetch gameId = .error e) :
    gamesStep fetch acc gameId = (acc.1, acc.2 ++ [(gameId, e)]) := by
  unfold gamesStep
  rw [h]

/-- The collection loop of `games`: with one failing identifier `k` and
all other tasks succeeding, the loop keeps exactly the non-`k`
identifiers as success keys and exactly the `k` occurrences as failure
records, in submission-sequence order. -/
theorem games_fold_aux (fetch : Int → Except String J) (k : Int)
    (hfail : (gameTask fetch k).isOk = false) :
    ∀ (order : List Int) (acc : List (Int × List Record) × List (Int × String)),
    (∀ j ∈ order, j ≠ k → (gameTask fetch j).isOk = true) →
    (order.foldl (gamesStep fetch) acc).1.map Prod.fst
      = acc.1.map Prod.fst ++ order.filter (fun j => !(j == k)) ∧
    (order.foldl (gamesStep fetch) acc).2.map Prod.fst
      = acc.2.map Prod.fst ++ order.filter (fun j => (j == k)) := by
  intro order
  induction order with
  | nil => intro acc _; simp
  | cons x rest ih =>
    intro acc hok
    have hrest : ∀ j ∈ rest, j ≠ k → (gameTask fetch j).isOk = true :=
      fun j hj hne => hok j (List.mem_cons_of_mem x hj) hne
    by_cases hx : x = k
    · subst hx
      cases ht : gameTask fetch x with
      | ok p =>
        rw [ht] at hfail
        exact absurd hfail (by simp [Except.isOk, Except.toBool])
      | error e =>
        rw [List.foldl_cons, gamesStep_error fetch acc x e ht]
        obtain ⟨ih1, ih2⟩ := ih (acc.1, acc.2 ++ [(x, e)]) hrest
        refine ⟨?_, ?_⟩
        · rw [ih1]
          simp [List.filter_cons]
        · rw [ih2]
          simp [List.filter_cons]
    · have hxk : (x == k) = false := beq_eq_false_iff_ne.mpr hx
      have hxok : (gameTask fetch x).isOk = true :=
        hok x (List.mem_cons_self x rest) hx
      cases ht : gameTask fetch x with
      | error e =>
        rw [ht] at hxok
        exact absurd hxok (by simp [Except.isOk, Except.toBool])
      | ok p =>
        obtain ⟨g, df⟩ := p
        have hp1 : g = x := gameTask_ok_fst fetch x (g, df) ht
        rw [List.foldl_cons, gamesStep_ok fetch acc x g df ht]
        obtain ⟨ih1, ih2⟩ := ih (acc.1 ++ [(g, df)], acc.2) hrest
        constructor
        · rw [ih1, hp1]
          simp [List.filter_cons, hxk]
        · rw [ih2]
          simp [List.filter_cons, hxk]

theorem filter_eq_singleton_of_nodup (l : List Int) (k : Int)
    (hnd : l.Nodup) (hk : k ∈ l) :
    l.filter (fun j => (j == k)) = [k] := by
  induction l with
  | nil => cases hk
  | cons x rest ih =>
    rw [List.nodup_cons] at hnd
    rcases List.mem_cons.mp hk with h1 | h1
    · subst h1
      have hfr : rest.filter (fun j => (j == k)) = [] := by
        rw [List.filter_eq_nil_iff]
        intro a ha
        intro hcon
        have : a = k := by simpa using hcon
        subst this
        exact hnd.1 ha
      simp [List.filter_cons, hfr]
    · have hxk : (x == k) = false := by
        refine beq_eq_false_iff_ne.mpr ?_
        intro hcon
        subst hcon
        exact hnd.1 h1
      simp [List.filter_cons, hxk]
      exact ih hnd.2 h1

theorem filter_ne_length_of_nodup (l : List Int) (k : Int)
    (hnd : l.Nodup) (hk : k ∈ l) :
    (l.filter (fun j => !(j == k))).length = l.length - 1 := by
  induction l with
  | nil => cases hk
  | cons x rest ih =>
    rw [List.nodup_cons] at hnd
    rcases List.mem_cons.mp hk with h1 | h1
    · subst h1
      have hfr : rest.filter (fun j => !(j == k)) = rest := by
        rw [List.filter_eq_self]
        intro a ha
        simp only [Bool.not_eq_true']
        refine beq_eq_false_iff_ne.mpr ?_
        intro hcon
        subst hcon
        exact hnd.1 ha
      simp [List.filter_cons, hfr]
    · have hxk : (x == k) = false := by
        refine beq_eq_false_iff_ne.mpr ?_
        intro hcon
        subst hcon
        exact hnd.1 h1
      have hlen : 1 ≤ rest.length := by
        cases rest with
        | nil => cases h1
        | cons y ys => simp
      simp [List.filter_cons, hxk, ih hnd.2 h1]
      omega

/-- C8: for every list of distinct game identifiers processed in any
completion order, when the task for exactly one identifier `k` fails
(transport error or malformed-document error) and all other tasks
succeed, the orchestrator returns: a success mapping whose keys are
exactly the other N-1 identifiers, and a separately collected failure
record for `k` alone; the collection loop is total (never raises). -/
theorem orchestrator_isolates_single_failure (fetch : Int → Except String J)
    (ids order : List Int) (k : Int)
    (hperm : order.Perm ids) (hnd : ids.Nodup) (hk : k ∈ ids)
    (hfail : (gameTask fetch k).isOk = false)
    (hok : ∀ j ∈ ids, j ≠ k → (gameTask fetch j).isOk = true) :
    ((gamesOrchestrator fetch order).1.map Prod.fst).Perm
      (ids.filter (fun j => !(j == k))) ∧
    ((gamesOrchestrator fetch order).1.map Prod.fst).length = ids.length - 1 ∧
    (gamesOrchestrator fetch order).2.map Prod.fst = [k] := by
  have hok' : ∀ j ∈ order, j ≠ k → (gameTask fetch j).isOk = true :=
    fun j hj => hok j (hperm.mem_iff.mp hj)
  have hond : order.Nodup := (hperm.nodup_iff).mpr hnd
  have hokk : k ∈ order := hperm.mem_iff.mpr hk
  obtain ⟨h1, h2⟩ := games_fold_aux fetch k hfail order ([], []) hok'
  have hg1 : (gamesOrchestrator fetch order).1.map Prod.fst
      = order.filter (fun j => !(j == k)) := by
    unfold gamesOrchestrator
    rw [h1]
    simp
  have hg2 : (gamesOrchestrator fetch order).2.map Prod.fst
      = order.filter (fun j => (j == k)) := by
    unfold gamesOrchestrator
    rw [h2]
    simp
  refine ⟨?_, ?_, ?_⟩
  · rw [hg1]
    exact hperm.filter _
  · rw [hg1, filter_ne_length_of_nodup order k hond hokk, hperm.length_eq]
  · rw [hg2, filter_eq_singleton_of_nodup order k hond hokk]

def c1SkipEvent : J := J.obj
  [("count", J.obj [("balls", J.i 2), ("strikes", J.i 1), ("outs", J.i 1)]),
   ("index", J.i 0), ("type", J.s "stolen_base")]

def c1PitchEvent : J := J.obj
  [("isPitch", J.b true),
   ("details", J.obj [("call", J.obj [("code", J.s "S")]), ("code", J.s "S"),
     ("description", J.s "Swinging Strike"), ("isStrike", J.b true)]),
   ("count", J.obj [("balls", J.i 2), ("strikes", J.i 2), ("outs", J.i 1)]),
   ("index", J.i 1), ("playId", J.s "p2")]

def c1Es : List J := [c1SkipEvent, c1PitchEvent]

def c1Play : J := J.obj
  [("result", J.obj [("type", J.s "atBat"), ("event", J.s "Strikeout"),
     ("eventType", J.s "strikeout"), ("rbi", J.i 0), ("awayScore", J.i 3),
     ("homeScore", J.i 2), ("isOut", J.b true)]),
   ("about", J.obj [("isTopInning", J.b true)]),
   ("matchup", J.obj [("batter", J.obj [("id", J.i 1)]),
     ("pitcher", J.obj [("id", J.i 2)])]),
   ("playEvents", J.arr c1Es)]

def c1Rec : Record :=
  match extractEventData c1Play c1PitchEvent 1 c1Es with
  | .ok r => r
  | .error _ => []

/-- C1 witness: a pitch event at index 1 preceded by a skipped
administrative event at index 0 — the record's count-before is the
skipped event's count-after. -/
theorem c1_witness :
    ∃ prev prevCount s b o, c1Es.get? (1 - 1) = some prev ∧
      pgetD prev "count" (J.obj []) = .ok prevCount ∧
      pget prevCount "strikes" = .ok s ∧ pget prevCount "balls" = .ok b ∧
      pget prevCount "outs" = .ok o ∧
      recGet c1Rec "strikes" = some (.j s) ∧
      recGet c1Rec "balls" = some (.j b) ∧
      recGet c1Rec "outs" = some (.j o) :=
  (count_before_from_previous_event c1Play c1PitchEvent c1Es 1 c1Rec rfl rfl).1
    (by decide)

/-- C3 witness: the pitch event at index 1 is the last of its play, so
its record carries the play's result fields. -/
theorem c3_witness :
    ∃ result v1 v2 v3 v4 v5 v6 v7,
      pgetD c1Play "result" (J.obj []) = .ok result ∧
      pget result "type" = .ok v1 ∧ pget result "event" = .ok v2 ∧
      pget result "eventType" = .ok v3 ∧ pget result "rbi" = .ok v4 ∧
      pget result "awayScore" = .ok v5 ∧ pget result "homeScore" = .ok v6 ∧
      pget result "isOut" = .ok v7 ∧
      recGet c1Rec "type_ab" = some (.j v1) ∧
      recGet c1Rec "event" = some (.j v2) ∧
      recGet c1Rec "event_type" = some (.j v3) ∧
      recGet c1Rec "rbi" = some (.j v4) ∧
      recGet c1Rec "away_score" = some (.j v5) ∧
      recGet c1Rec "home_score" = some (.j v6) ∧
      recGet c1Rec "is_out" = some (.j v7) :=
  (ab_result_only_on_last_event c1Play c1PitchEvent 1 c1Es c1Rec (by decide)
    rfl).1 rfl

/-- C9 witness: a pitch event with call code "S". -/
theorem c9_witness :
    ∃ details code,
      pgetD c1PitchEvent "details" (J.obj []) = .ok details ∧
      pget details "code" = .ok code ∧
      ((recGet c1Rec "is_swing" = some (.j (J.b true))) ↔
        ∃ t, t ∈ swingList ∧ code = J.s t) ∧
      ((recGet c1Rec "is_whiff" = some (.j (J.b true))) ↔
        ∃ t, t ∈ whiffList ∧ code = J.s t) ∧
      (code = J.null →
        recGet c1Rec "is_swing" = some RVal.nan ∧
        recGet c1Rec "is_whiff" = some RVal.nan) :=
  swing_whiff_flag_derivation c1Play c1PitchEvent 1 c1Es c1Rec rfl

/-- C10 witness: a walk-by-count event with count strikes 1, balls 4,
outs 2. -/
theorem c10_witness :
    ∃ count s b o, pgetD c2Event "count" (J.obj []) = .ok count ∧
      pget count "strikes" = .ok s ∧ pget count "balls" = .ok b ∧
      pget count "outs" = .ok o ∧
      recGet c2Rec "strikes" = some (.j s) ∧
      recGet c2Rec "strikes_after" = some (.j s) ∧
      recGet c2Rec "balls" = some (.j b) ∧
      recGet c2Rec "balls_after" = some (.j b) ∧
      recGet c2Rec "outs" = some (.j o) ∧
      recGet c2Rec "outs_after" = some (.j o) :=
  walk_count_before_equals_after c2Play c2Event (J.obj []) c2Rec rfl

/-- C2 witness: the amended walk-record description instantiated at a
concrete walk event. -/
theorem c2_witness :
    (∃ count s b o, pgetD c2Event "count" (J.obj []) = .ok count ∧
      pget count "strikes" = .ok s ∧ pget count "balls" = .ok b ∧
      pget count "outs" = .ok o ∧
      recGet c2Rec "strikes" = some (.j s) ∧
      recGet c2Rec "balls" = some (.j b) ∧
      recGet c2Rec "outs" = some (.j o) ∧
      recGet c2Rec "strikes_after" = some (.j s) ∧
      recGet c2Rec "balls_after" = some (.j b) ∧
      recGet c2Rec "outs_after" = some (.j o)) ∧
    (∃ result ev evType, pgetD c2Play "result" (J.obj []) = .ok result ∧
      pget result "event" = .ok ev ∧ pget result "eventType" = .ok evType ∧
      recGet c2Rec "event" = some (.j ev) ∧
      recGet c2Rec "event_type" = some (.j evType)) ∧
    recGet c2Rec "start_speed" = some RVal.nan :=
  ⟨(walk_record_field_population c2Play c2Event (J.obj []) c2Rec rfl).1,
   (walk_record_field_population c2Play c2Event (J.obj []) c2Rec rfl).2.1,
   (walk_record_field_population c2Play c2Event (J.obj []) c2Rec rfl).2.2
     "start_speed" (by decide)⟩

/-- C7 witness: the key lists of a concrete pitch record and a concrete
walk record. -/
theorem c7_witness :
    c1Rec.map Prod.fst = pitchRecordKeys ∧
    c2Rec.map Prod.fst = walkRecordKeys ∧
    walkRecordKeys.Perm (pitchRecordKeys ++ ["ab_number"]) :=
  record_key_sets c1Play c1PitchEvent 1 c1Es c2Play c2Event (J.obj [])
    c1Rec c2Rec rfl rfl

/-- C4 witness: a non-mapping document makes flatten raise. -/
theorem c4_witness : gameToDf J.null = .error () :=
  flatten_raises_only_for_nonmapping.1 J.null
    (fun _ h => J.noConfusion h)

/-- A transport collaborator that fails for id 2 and returns an empty
(but well-formed) document otherwise. -/
def c8fetch : Int → Except String J :=
  fun g => if g == 2 then .error "bad response code" else .ok (J.obj [])

/-- C8 witness: of ids 1, 2, 3 only the fetch of id 2 fails; the
success mapping holds exactly ids 1 and 3 and the failure list exactly
id 2. -/
theorem c8_witness :
    ((gamesOrchestrator c8fetch [1, 2, 3]).1.map Prod.fst).Perm
      (([1, 2, 3] : List Int).filter (fun j => !(j == 2))) ∧
    ((gamesOrchestrator c8fetch [1, 2, 3]).1.map Prod.fst).length
      = ([1, 2, 3] : List Int).length - 1 ∧
    (gamesOrchestrator c8fetch [1, 2, 3]).2.map Prod.fst = [2] :=
  orchestrator_isolates_single_failure c8fetch [1, 2, 3] [1, 2, 3] 2
    (List.Perm.refl _) (by decide) (by decide) rfl (by decide)

/-!
For the safety contract of `flatten` (never raising on documents with
arbitrarily absent optional fields) we build a family of structured
partial documents: every field the flattener reads is optional, leaf
positions carry arbitrary JSON values, and each object that the code
only reads leaves from is an arbitrary association list.  The only
shape requirement, `keysAvoid`, is that such an arbitrary leaf list
does not reuse the key of a nested sub-object the code chains a second
lookup through.
-/

/-- One optional object entry. -/
def optEntry (k : String) : Option J → List (String × J)
  | some v => [(k, v)]
  | none => []

/-- No pair of `fs` uses any of the keys `ks`. -/
def keysAvoid (fs : List (String × J)) (ks : List String) : Bool :=
  fs.all (fun q => ks.all (fun k => !(q.1 == k)))

structure SMatchup where
  batter : Option (List (String × J))
  pitcher : Option (List (String × J))
  batSide : Option (List (String × J))
  pitchHand : Option (List (String × J))
  leaves : List (String × J)

def SMatchup.toJ (m : SMatchup) : J :=
  J.obj (optEntry "batter" (m.batter.map J.obj) ++
    optEntry "pitcher" (m.pitcher.map J.obj) ++
    optEntry "batSide" (m.batSide.map J.obj) ++
    optEntry "pitchHand" (m.pitchHand.map J.obj) ++ m.leaves)

def SMatchup.wf (m : SMatchup) : Bool :=
  keysAvoid m.leaves ["batter", "pitcher", "batSide", "pitchHand"]

structure STeams where
  away : Option (List (String × J))
  home : Option (List (String × J))

def STeams.toJ (t : STeams) : J :=
  J.obj (optEntry "away" (t.away.map J.obj) ++
    optEntry "home" (t.home.map J.obj))

structure STeamsBlock where
  teams : Option STeams

def STeamsBlock.toJ (t : STeamsBlock) : J :=
  J.obj (optEntry "teams" (t.teams.map STeams.toJ))

structure SGameRef where
  gameData : Option STeamsBlock

def SGameRef.toJ (g : SGameRef) : J :=
  J.obj (optEntry "gameData" (g.gameData.map STeamsBlock.toJ))

structure SDetails where
  typeBlock : Option (List (String × J))
  leaves : List (String × J)

def SDetails.toJ (d : SDetails) : J :=
  J.obj (optEntry "type" (d.typeBlock.map J.obj) ++ d.leaves)

def SDetails.wf (d : SDetails) : Bool :=
  keysAvoid d.leaves ["type"]

structure SPitchData where
  coordinates : Option (List (String × J))
  breaks : Option (List (String × J))
  leaves : List (String × J)

def SPitchData.toJ (p : SPitchData) : J :=
  J.obj (optEntry "coordinates" (p.coordinates.map J.obj) ++
    optEntry "breaks" (p.breaks.map J.obj) ++ p.leaves)

def SPitchData.wf (p : SPitchData) : Bool :=
  keysAvoid p.leaves ["coordinates", "breaks"]

structure SHitData where
  coordinates : Option (List (String × J))
  leaves : List (String × J)

def SHitData.toJ (h : SHitData) : J :=
  J.obj (optEntry "coordinates" (h.coordinates.map J.obj) ++ h.leaves)

def SHitData.wf (h : SHitData) : Bool :=
  keysAvoid h.leaves ["coordinates"]

structure SEvent where
  details : Option SDetails
  count : Option (List (String × J))
  pitchData : Option SPitchData
  hitData : Option SHitData
  leaves : List (String × J)

def SEvent.toJ (e : SEvent) : J :=
  J.obj (optEntry "details" (e.details.map SDetails.toJ) ++
    optEntry "count" (e.count.map J.obj) ++
    optEntry "pitchData" (e.pitchData.map SPitchData.toJ) ++
    optEntry "hitData" (e.hitData.map SHitData.toJ) ++ e.leaves)

def SEvent.wf (e : SEvent) : Bool :=
  keysAvoid e.leaves ["details", "count", "pitchData", "hitData"] &&
  (match e.details with | some d => d.wf | none => true) &&
  (match e.pitchData with | some p => p.wf | none => true) &&
  (match e.hitData with | some h => h.wf | none => true)

structure SPlay where
  matchup : Option SMatchup
  about : Option (List (String × J))
  result : Option (List (String × J))
  game : Option SGameRef
  playEvents : Option (List SEvent)
  leaves : List (String × J)

def SPlay.toJ (p : SPlay) : J :=
  J.obj (optEntry "matchup" (p.matchup.map SMatchup.toJ) ++
    optEntry "about" (p.about.map J.obj) ++
    optEntry "result" (p.result.map J.obj) ++
    optEntry "game" (p.game.map SGameRef.toJ) ++
    optEntry "playEvents"
      ((p.playEvents.map (fun evs => J.arr (evs.map SEvent.toJ)))) ++
    p.leaves)

def SPlay.wf (p : SPlay) : Bool :=
  keysAvoid p.leaves ["matchup", "about", "result", "game", "playEvents"] &&
  (match p.matchup with | some m => m.wf | none => true) &&
  (match p.playEvents with | some evs => evs.all SEvent.wf | none => true)

structure SGameData where
  datetime : Option (List (String × J))
  leaves : List (String × J)

def SGameData.toJ (g : SGameData) : J :=
  J.obj (optEntry "datetime" (g.datetime.map J.obj) ++ g.leaves)

def SGameData.wf (g : SGameData) : Bool :=
  keysAvoid g.leaves ["datetime"]

structure SPlaysBlock where
  allPlays : Option (List SPlay)

def SPlaysBlock.toJ (p : SPlaysBlock) : J :=
  J.obj (optEntry "allPlays" (p.allPlays.map (fun ps => J.arr (ps.map SPlay.toJ))))

structure SLiveData where
  plays : Option SPlaysBlock

def SLiveData.toJ (l : SLiveData) : J :=
  J.obj (optEntry "plays" (l.plays.map SPlaysBlock.toJ))

structure SGame where
  gameData : Option SGameData
  liveData : Option SLiveData
  leaves : List (String × J)

def SGame.toJ (g : SGame) : J :=
  J.obj (optEntry "gameData" (g.gameData.map SGameData.toJ) ++
    optEntry "liveData" (g.liveData.map SLiveData.toJ) ++ g.leaves)

def SGame.wf (g : SGame) : Bool :=
  keysAvoid g.leaves ["gameData", "liveData"] &&
  (match g.gameData with | some gd => gd.wf | none => true) &&
  (match g.liveData with
   | some ld =>
     match ld.plays with
     | some pb =>
       match pb.allPlays with
       | some ps => ps.all SPlay.wf
       | none => true
     | none => true
   | none => true)

/-- The document has no plays to flatten. -/
def SGame.noPlays (g : SGame) : Bool :=
  match g.liveData with
  | none => true
  | some ld =>
    match ld.plays with
    | none => true
    | some pb =>
      match pb.allPlays with
      | none => true
      | some ps => ps.isEmpty

theorem objGet_optEntry_hit (k : String) (o : Option J) (rest : List (String × J)) (d : J) :
    objGet (optEntry k o ++ rest) k d =
      (match o with | some v => v | none => objGet rest k d) := by
  cases o with
  | some v => simp [optEntry, objGet, List.find?_cons]
  | none => rfl

theorem objGet_optEntry_skip (k k' : String) (o : Option J) (rest : List (String × J)) (d : J)
    (h : (k == k') = false) :
    objGet (optEntry k o ++ rest) k' d = objGet rest k' d := by
  cases o with
  | some v => simp [optEntry, objGet, List.find?_cons, h]
  | none => rfl

theorem objGet_avoid (fs : List (String × J)) (ks : List String) (k : String) (d : J)
    (h1 : keysAvoid fs ks = true) (h2 : ks.any (fun x => x == k) = true) :
    objGet fs k d = d := by
  induction fs with
  | nil => rfl
  | cons q rest ih =>
    simp only [keysAvoid, List.all_cons, Bool.and_eq_true] at h1
    have hq : (q.1 == k) = false := by
      rcases List.any_eq_true.mp h2 with ⟨x, hx, hxk⟩
      have hxk' : x = k := by simpa using hxk
      have h3 := (List.all_eq_true.mp h1.1) x hx
      rw [hxk'] at h3
      simpa using h3
    rw [objGet] at *
    simp only [List.find?_cons, hq]
    have := ih (by simpa [keysAvoid] using h1.2)
    simpa [objGet] using this

theorem pgetD_obj (fs : List (String × J)) (k : String) (d : J) :
    pgetD (J.obj fs) k d = .ok (objGet fs k d) := rfl

/-- `m >>= f` computes with a known first step. -/
theorem bind_ok_eq {ε α β : Type} {m : Except ε α} {a : α}
    (h : m = .ok a) (f : α → Except ε β) : (m >>= f) = f a := by
  rw [h]
  rfl

def jOfObj : Option (List (String × J)) → J
  | some fs => J.obj fs
  | none => J.obj []

def jOfMatchup : Option SMatchup → J
  | some m => m.toJ
  | none => J.obj []

def jOfDetails : Option SDetails → J
  | some d => d.toJ
  | none => J.obj []

def jOfPitch : Option SPitchData → J
  | some p => p.toJ
  | none => J.obj []

def jOfHit : Option SHitData → J
  | some h => h.toJ
  | none => J.obj []

def jOfGameRef : Option SGameRef → J
  | some g => g.toJ
  | none => J.obj []

def jOfTeamsBlock : Option STeamsBlock → J
  | some t => t.toJ
  | none => J.obj []

def jOfTeams : Option STeams → J
  | some t => t.toJ
  | none => J.obj []

def jOfGameData : Option SGameData → J
  | some g => g.toJ
  | none => J.obj []

def jOfLiveData : Option SLiveData → J
  | some l => l.toJ
  | none => J.obj []

def jOfPlaysBlock : Option SPlaysBlock → J
  | some p => p.toJ
  | none => J.obj []

def jOfEvents : Option (List SEvent) → J
  | some evs => J.arr (evs.map SEvent.toJ)
  | none => J.arr []

def jOfPlays : Option (List SPlay) → J
  | some ps => J.arr (ps.map SPlay.toJ)
  | none => J.arr []

theorem SPlay.wf_avoidP (p : SPlay) (hwf : p.wf = true) :
    keysAvoid p.leaves ["matchup", "about", "result", "game", "playEvents"] = true := by
  unfold SPlay.wf at hwf
  simp only [Bool.and_eq_true] at hwf
  exact hwf.1.1

theorem SPlay.get_matchup (p : SPlay) (hwf : p.wf = true) :
    pgetD p.toJ "matchup" (J.obj []) = .ok (jOfMatchup p.matchup) := by
  have hav := p.wf_avoidP hwf
  unfold SPlay.toJ
  rw [pgetD_obj]
  try simp only [List.append_assoc]
  rw [objGet_optEntry_hit]
  cases p.matchup with
  | some m => rfl
  | none =>
    rw [objGet_optEntry_skip "about" "matchup" _ _ _ (by decide),
      objGet_optEntry_skip "result" "matchup" _ _ _ (by decide),
      objGet_optEntry_skip "game" "matchup" _ _ _ (by decide),
      objGet_optEntry_skip "playEvents" "matchup" _ _ _ (by decide),
      objGet_avoid p.leaves _ "matchup" _ hav (by decide)]
    rfl

theorem SPlay.get_about (p : SPlay) (hwf : p.wf = true) :
    pgetD p.toJ "about" (J.obj []) = .ok (jOfObj p.about) := by
  have hav := p.wf_avoidP hwf
  unfold SPlay.toJ
  rw [pgetD_obj]
  try simp only [List.append_assoc]
  rw [objGet_optEntry_skip "matchup" "about" _ _ _ (by decide),
    objGet_optEntry_hit]
  cases p.about with
  | some fs => rfl
  | none =>
    rw [objGet_optEntry_skip "result" "about" _ _ _ (by decide),
      objGet_optEntry_skip "game" "about" _ _ _ (by decide),
      objGet_optEntry_skip "playEvents" "about" _ _ _ (by decide),
      objGet_avoid p.leaves _ "about" _ hav (by decide)]
    rfl

theorem SPlay.get_result (p : SPlay) (hwf : p.wf = true) :
    pgetD p.toJ "result" (J.obj []) = .ok (jOfObj p.result) := by
  have hav := p.wf_avoidP hwf
  unfold SPlay.toJ
  rw [pgetD_obj]
  try simp only [List.append_assoc]
  rw [objGet_optEntry_skip "matchup" "result" _ _ _ (by decide),
    objGet_optEntry_skip "about" "result" _ _ _ (by decide),
    objGet_optEntry_hit]
  cases p.result with
  | some fs => rfl
  | none =>
    rw [objGet_optEntry_skip "game" "result" _ _ _ (by decide),
      objGet_optEntry_skip "playEvents" "result" _ _ _ (by decide),
      objGet_avoid p.leaves _ "result" _ hav (by decide)]
    rfl

theorem SPlay.get_game (p : SPlay) (hwf : p.wf = true) :
    pgetD p.toJ "game" (J.obj []) = .ok (jOfGameRef p.game) := by
  have hav := p.wf_avoidP hwf
  unfold SPlay.toJ
  rw [pgetD_obj]
  try simp only [List.append_assoc]
  rw [objGet_optEntry_skip "matchup" "game" _ _ _ (by decide),
    objGet_optEntry_skip "about" "game" _ _ _ (by decide),
    objGet_optEntry_skip "result" "game" _ _ _ (by decide),
    objGet_optEntry_hit]
  cases p.game with
  | some g => rfl
  | none =>
    rw [objGet_optEntry_skip "playEvents" "game" _ _ _ (by decide),
      objGet_avoid p.leaves _ "game" _ hav (by decide)]
    rfl

theorem SPlay.get_playEvents (p : SPlay) (hwf : p.wf = true) :
    pgetD p.toJ "playEvents" (J.arr []) = .ok (jOfEvents p.playEvents) := by
  have hav := p.wf_avoidP hwf
  unfold SPlay.toJ
  rw [pgetD_obj]
  try simp only [List.append_assoc]
  rw [objGet_optEntry_skip "matchup" "playEvents" _ _ _ (by decide),
    objGet_optEntry_skip "about" "playEvents" _ _ _ (by decide),
    objGet_optEntry_skip "result" "playEvents" _ _ _ (by decide),
    objGet_optEntry_skip "game" "playEvents" _ _ _ (by decide),
    objGet_optEntry_hit]
  cases p.playEvents with
  | some evs => rfl
  | none =>
    rw [objGet_avoid p.leaves _ "playEvents" _ hav (by decide)]
    rfl

theorem SEvent.wf_avoidE (e : SEvent) (hwf : e.wf = true) :
    keysAvoid e.leaves ["details", "count", "pitchData", "hitData"] = true := by
  unfold SEvent.wf at hwf
  simp only [Bool.and_eq_true] at hwf
  exact hwf.1.1.1

theorem SEvent.get_details (e : SEvent) (hwf : e.wf = true) :
    pgetD e.toJ "details" (J.obj []) = .ok (jOfDetails e.details) := by
  have hav := e.wf_avoidE hwf
  unfold SEvent.toJ
  rw [pgetD_obj]
  try simp only [List.append_assoc]
  rw [objGet_optEntry_hit]
  cases e.details with
  | some d => rfl
  | none =>
    rw [objGet_optEntry_skip "count" "details" _ _ _ (by decide),
      objGet_optEntry_skip "pitchData" "details" _ _ _ (by decide),
      objGet_optEntry_skip "hitData" "details" _ _ _ (by decide),
      objGet_avoid e.leaves _ "details" _ hav (by decide)]
    rfl

theorem SEvent.get_count (e : SEvent) (hwf : e.wf = true) :
    pgetD e.toJ "count" (J.obj []) = .ok (jOfObj e.count) := by
  have hav := e.wf_avoidE hwf
  unfold SEvent.toJ
  rw [pgetD_obj]
  try simp only [List.append_assoc]
  rw [objGet_optEntry_skip "details" "count" _ _ _ (by decide),
    objGet_optEntry_hit]
  cases e.count with
  | some fs => rfl
  | none =>
    rw [objGet_optEntry_skip "pitchData" "count" _ _ _ (by decide),
      objGet_optEntry_skip "hitData" "count" _ _ _ (by decide),
      objGet_avoid e.leaves _ "count" _ hav (by decide)]
    rfl

theorem SEvent.get_pitchData (e : SEvent) (hwf : e.wf = true) :
    pgetD e.toJ "pitchData" (J.obj []) = .ok (jOfPitch e.pitchData) := by
  have hav := e.wf_avoidE hwf
  unfold SEvent.toJ
  rw [pgetD_obj]
  try simp only [List.append_assoc]
  rw [objGet_optEntry_skip "details" "pitchData" _ _ _ (by decide),
    objGet_optEntry_skip "count" "pitchData" _ _ _ (by decide),
    objGet_optEntry_hit]
  cases e.pitchData with
  | some p => rfl
  | none =>
    rw [objGet_optEntry_skip "hitData" "pitchData" _ _ _ (by decide),
      objGet_avoid e.leaves _ "pitchData" _ hav (by decide)]
    rfl

theorem SEvent.get_hitData (e : SEvent) (hwf : e.wf = true) :
    pgetD e.toJ "hitData" (J.obj []) = .ok (jOfHit e.hitData) := by
  have hav := e.wf_avoidE hwf
  unfold SEvent.toJ
  rw [pgetD_obj]
  try simp only [List.append_assoc]
  rw [objGet_optEntry_skip "details" "hitData" _ _ _ (by decide),
    objGet_optEntry_skip "count" "hitData" _ _ _ (by decide),
    objGet_optEntry_skip "pitchData" "hitData" _ _ _ (by decide),
    objGet_optEntry_hit]
  cases e.hitData with
  | some h => rfl
  | none =>
    rw [objGet_avoid e.leaves _ "hitData" _ hav (by decide)]
    rfl

theorem SDetails.get_typeBlock (d : SDetails) (hwf : d.wf = true) :
    pgetD d.toJ "type" (J.obj []) = .ok (jOfObj d.typeBlock) := by
  unfold SDetails.wf at hwf
  unfold SDetails.toJ
  rw [pgetD_obj]
  try simp only [List.append_assoc]
  rw [objGet_optEntry_hit]
  cases d.typeBlock with
  | some fs => rfl
  | none =>
    rw [objGet_avoid d.leaves _ "type" _ hwf (by decide)]
    rfl

theorem SPitchData.get_pitch_coordinates (p : SPitchData) (hwf : p.wf = true) :
    pgetD p.toJ "coordinates" (J.obj []) = .ok (jOfObj p.coordinates) := by
  unfold SPitchData.wf at hwf
  unfold SPitchData.toJ
  rw [pgetD_obj]
  try simp only [List.append_assoc]
  rw [objGet_optEntry_hit]
  cases p.coordinates with
  | some fs => rfl
  | none =>
    rw [objGet_optEntry_skip "breaks" "coordinates" _ _ _ (by decide),
      objGet_avoid p.leaves _ "coordinates" _ hwf (by decide)]
    rfl

theorem SPitchData.get_breaks (p : SPitchData) (hwf : p.wf = true) :
    pgetD p.toJ "breaks" (J.obj []) = .ok (jOfObj p.breaks) := by
  unfold SPitchData.wf at hwf
  unfold SPitchData.toJ
  rw [pgetD_obj]
  try simp only [List.append_assoc]
  rw [objGet_optEntry_skip "coordinates" "breaks" _ _ _ (by decide),
    objGet_optEntry_hit]
  cases p.breaks with
  | some fs => rfl
  | none =>
    rw [objGet_avoid p.leaves _ "breaks" _ hwf (by decide)]
    rfl

theorem SHitData.get_hit_coordinates (h : SHitData) (hwf : h.wf = true) :
    pgetD h.toJ "coordinates" (J.obj []) = .ok (jOfObj h.coordinates) := by
  unfold SHitData.wf at hwf
  unfold SHitData.toJ
  rw [pgetD_obj]
  try simp only [List.append_assoc]
  rw [objGet_optEntry_hit]
  cases h.coordinates with
  | some fs => rfl
  | none =>
    rw [objGet_avoid h.leaves _ "coordinates" _ hwf (by decide)]
    rfl

theorem SMatchup.get_batter (m : SMatchup) (hwf : m.wf = true) :
    pgetD m.toJ "batter" (J.obj []) = .ok (jOfObj m.batter) := by
  unfold SMatchup.wf at hwf
  unfold SMatchup.toJ
  rw [pgetD_obj]
  try simp only [List.append_assoc]
  rw [objGet_optEntry_hit]
  cases m.batter with
  | some fs => rfl
  | none =>
    rw [objGet_optEntry_skip "pitcher" "batter" _ _ _ (by decide),
      objGet_optEntry_skip "batSide" "batter" _ _ _ (by decide),
      objGet_optEntry_skip "pitchHand" "batter" _ _ _ (by decide),
      objGet_avoid m.leaves _ "batter" _ hwf (by decide)]
    rfl

theorem SMatchup.get_pitcher (m : SMatchup) (hwf : m.wf = true) :
    pgetD m.toJ "pitcher" (J.obj []) = .ok (jOfObj m.pitcher) := by
  unfold SMatchup.wf at hwf
  unfold SMatchup.toJ
  rw [pgetD_obj]
  try simp only [List.append_assoc]
  rw [objGet_optEntry_skip "batter" "pitcher" _ _ _ (by decide),
    objGet_optEntry_hit]
  cases m.pitcher with
  | some fs => rfl
  | none =>
    rw [objGet_optEntry_skip "batSide" "pitcher" _ _ _ (by decide),
      objGet_optEntry_skip "pitchHand" "pitcher" _ _ _ (by decide),
      objGet_avoid m.leaves _ "pitcher" _ hwf (by decide)]
    rfl

theorem SMatchup.get_batSide (m : SMatchup) (hwf : m.wf = true) :
    pgetD m.toJ "batSide" (J.obj []) = .ok (jOfObj m.batSide) := by
  unfold SMatchup.wf at hwf
  unfold SMatchup.toJ
  rw [pgetD_obj]
  try simp only [List.append_assoc]
  rw [objGet_optEntry_skip "batter" "batSide" _ _ _ (by decide),
    objGet_optEntry_skip "pitcher" "batSide" _ _ _ (by decide),
    objGet_optEntry_hit]
  cases m.batSide with
  | some fs => rfl
  | none =>
    rw [objGet_optEntry_skip "pitchHand" "batSide" _ _ _ (by decide),
      objGet_avoid m.leaves _ "batSide" _ hwf (by decide)]
    rfl

theorem SMatchup.get_pitchHand (m : SMatchup) (hwf : m.wf = true) :
    pgetD m.toJ "pitchHand" (J.obj []) = .ok (jOfObj m.pitchHand) := by
  unfold SMatchup.wf at hwf
  unfold SMatchup.toJ
  rw [pgetD_obj]
  try simp only [List.append_assoc]
  rw [objGet_optEntry_skip "batter" "pitchHand" _ _ _ (by decide),
    objGet_optEntry_skip "pitcher" "pitchHand" _ _ _ (by decide),
    objGet_optEntry_skip "batSide" "pitchHand" _ _ _ (by decide),
    objGet_optEntry_hit]
  cases m.pitchHand with
  | some fs => rfl
  | none =>
    rw [objGet_avoid m.leaves _ "pitchHand" _ hwf (by decide)]
    rfl

theorem SGameRef.get_refGameData (g : SGameRef) :
    pgetD g.toJ "gameData" (J.obj []) = .ok (jOfTeamsBlock g.gameData) := by
  unfold SGameRef.toJ
  cases g.gameData with
  | some t => rfl
  | none => rfl

theorem STeamsBlock.get_teams (t : STeamsBlock) :
    pgetD t.toJ "teams" (J.obj []) = .ok (jOfTeams t.teams) := by
  unfold STeamsBlock.toJ
  cases t.teams with
  | some x => rfl
  | none => rfl

theorem STeams.get_away (t : STeams) :
    pgetD t.toJ "away" (J.obj []) = .ok (jOfObj t.away) := by
  unfold STeams.toJ
  rw [pgetD_obj]
  try simp only [List.append_assoc]
  rw [objGet_optEntry_hit]
  cases t.away with
  | some fs => rfl
  | none =>
    cases t.home with
    | some fs => rfl
    | none => rfl

theorem STeams.get_home (t : STeams) :
    pgetD t.toJ "home" (J.obj []) = .ok (jOfObj t.home) := by
  unfold STeams.toJ
  rw [pgetD_obj]
  try simp only [List.append_assoc]
  rw [objGet_optEntry_skip "away" "home" _ _ _ (by decide)]
  cases t.home with
  | some fs => rfl
  | none => rfl

theorem SGame.wf_avoidG (g : SGame) (hwf : g.wf = true) :
    keysAvoid g.leaves ["gameData", "liveData"] = true := by
  unfold SGame.wf at hwf
  simp only [Bool.and_eq_true] at hwf
  exact hwf.1.1

theorem SGame.get_gameData (g : SGame) (hwf : g.wf = true) :
    pgetD g.toJ "gameData" (J.obj []) = .ok (jOfGameData g.gameData) := by
  have hav := g.wf_avoidG hwf
  unfold SGame.toJ
  rw [pgetD_obj]
  try simp only [List.append_assoc]
  rw [objGet_optEntry_hit]
  cases g.gameData with
  | some gd => rfl
  | none =>
    rw [objGet_optEntry_skip "liveData" "gameData" _ _ _ (by decide),
      objGet_avoid g.leaves _ "gameData" _ hav (by decide)]
    rfl

theorem SGame.get_liveData (g : SGame) (hwf : g.wf = true) :
    pgetD g.toJ "liveData" (J.obj []) = .ok (jOfLiveData g.liveData) := by
  have hav := g.wf_avoidG hwf
  unfold SGame.toJ
  rw [pgetD_obj]
  try simp only [List.append_assoc]
  rw [objGet_optEntry_skip "gameData" "liveData" _ _ _ (by decide),
    objGet_optEntry_hit]
  cases g.liveData with
  | some ld => rfl
  | none =>
    rw [objGet_avoid g.leaves _ "liveData" _ hav (by decide)]
    rfl

theorem SGameData.get_datetime (g : SGameData) (hwf : g.wf = true) :
    pgetD g.toJ "datetime" (J.obj []) = .ok (jOfObj g.datetime) := by
  unfold SGameData.wf at hwf
  unfold SGameData.toJ
  rw [pgetD_obj]
  try simp only [List.append_assoc]
  rw [objGet_optEntry_hit]
  cases g.datetime with
  | some fs => rfl
  | none =>
    rw [objGet_avoid g.leaves _ "datetime" _ hwf (by decide)]
    rfl

theorem SLiveData.get_plays (l : SLiveData) :
    pgetD l.toJ "plays" (J.obj []) = .ok (jOfPlaysBlock l.plays) := by
  unfold SLiveData.toJ
  cases l.plays with
  | some pb => rfl
  | none => rfl

theorem SPlaysBlock.get_allPlays (p : SPlaysBlock) :
    pgetD p.toJ "allPlays" (J.arr []) = .ok (jOfPlays p.allPlays) := by
  unfold SPlaysBlock.toJ
  cases p.allPlays with
  | some ps => rfl
  | none => rfl

theorem ok_bind {ε α β : Type} (a : α) (f : α → Except ε β) :
    ((Except.ok a : Except ε α) >>= f) = f a := rfl

theorem pget_obj (fs : List (String × J)) (k : String) :
    pget (J.obj fs) k = .ok (objGet fs k J.null) := rfl

theorem pget_of_obj {v : J} (h : ∃ fs, v = J.obj fs) (k : String) :
    ∃ w, pget v k = .ok w := by
  obtain ⟨fs, hfs⟩ := h
  subst hfs
  exact ⟨_, rfl⟩

theorem exists_obj_of_jOfObj {e : Except Unit J} {o : Option (List (String × J))}
    (h : e = .ok (jOfObj o)) : ∃ fs, e = .ok (J.obj fs) := by
  cases o with
  | some fs => exact ⟨fs, h⟩
  | none => exact ⟨[], h⟩

theorem jOfObj_obj (o : Option (List (String × J))) : ∃ fs, jOfObj o = J.obj fs := by
  cases o with
  | some fs => exact ⟨fs, rfl⟩
  | none => exact ⟨[], rfl⟩

theorem jOfObj_pget (o : Option (List (String × J))) (k : String) :
    ∃ v, pget (jOfObj o) k = .ok v := by
  cases o with
  | some fs => exact ⟨_, rfl⟩
  | none => exact ⟨_, rfl⟩

theorem jOfDetails_hasKey (o : Option SDetails) (k : String) :
    ∃ b, hasKey (jOfDetails o) k = .ok b := by
  cases o with
  | some d => exact ⟨_, rfl⟩
  | none => exact ⟨_, rfl⟩

def gameRefTeamsBlock : Option SGameRef → Option STeamsBlock
  | some g => g.gameData
  | none => none

def teamsBlockTeams : Option STeamsBlock → Option STeams
  | some t => t.teams
  | none => none

def teamsAwayOpt : Option STeams → Option (List (String × J))
  | some t => t.away
  | none => none

def teamsHomeOpt : Option STeams → Option (List (String × J))
  | some t => t.home
  | none => none

theorem jOfGameRef_get (o : Option SGameRef) :
    pgetD (jOfGameRef o) "gameData" (J.obj []) =
      .ok (jOfTeamsBlock (gameRefTeamsBlock o)) := by
  cases o with
  | some g => exact g.get_refGameData
  | none => rfl

theorem jOfTeamsBlock_get (o : Option STeamsBlock) :
    pgetD (jOfTeamsBlock o) "teams" (J.obj []) =
      .ok (jOfTeams (teamsBlockTeams o)) := by
  cases o with
  | some t => exact t.get_teams
  | none => rfl

theorem jOfTeams_get_away (o : Option STeams) :
    pgetD (jOfTeams o) "away" (J.obj []) = .ok (jOfObj (teamsAwayOpt o)) := by
  cases o with
  | some t => exact t.get_away
  | none => rfl

theorem jOfTeams_get_home (o : Option STeams) :
    pgetD (jOfTeams o) "home" (J.obj []) = .ok (jOfObj (teamsHomeOpt o)) := by
  cases o with
  | some t => exact t.get_home
  | none => rfl

def gameDataDatetime : Option SGameData → Option (List (String × J))
  | some g => g.datetime
  | none => none

theorem jOfGameData_get (o : Option SGameData)
    (hwf : (match o with | some g => g.wf | none => true) = true) :
    pgetD (jOfGameData o) "datetime" (J.obj []) =
      .ok (jOfObj (gameDataDatetime o)) := by
  cases o with
  | some g => exact g.get_datetime hwf
  | none => rfl

def liveDataPlays : Option SLiveData → Option SPlaysBlock
  | some l => l.plays
  | none => none

def playsBlockAll : Option SPlaysBlock → Option (List SPlay)
  | some p => p.allPlays
  | none => none

theorem jOfLiveData_get (o : Option SLiveData) :
    pgetD (jOfLiveData o) "plays" (J.obj []) =
      .ok (jOfPlaysBlock (liveDataPlays o)) := by
  cases o with
  | some l => exact l.get_plays
  | none => rfl

theorem jOfPlaysBlock_get (o : Option SPlaysBlock) :
    pgetD (jOfPlaysBlock o) "allPlays" (J.arr []) =
      .ok (jOfPlays (playsBlockAll o)) := by
  cases o with
  | some p => exact p.get_allPlays
  | none => rfl

theorem isOk_exists {ε α : Type} {e : Except ε α} (h : e.isOk = true) :
    ∃ a, e = .ok a := by
  cases e with
  | ok a => exact ⟨a, rfl⟩
  | error er => simp [Except.isOk, Except.toBool] at h

theorem matchupFields_total (o : Option SMatchup)
    (hwf : (match o with | some m => m.wf | none => true) = true) :
    (matchupFields (jOfMatchup o)).isOk = true := by
  cases o with
  | none => rfl
  | some m =>
    show (matchupFields m.toJ).isOk = true
    obtain ⟨fsb, hb⟩ := exists_obj_of_jOfObj (m.get_batter hwf)
    obtain ⟨fsp, hp⟩ := exists_obj_of_jOfObj (m.get_pitcher hwf)
    obtain ⟨fsbs, hbs⟩ := exists_obj_of_jOfObj (m.get_batSide hwf)
    obtain ⟨fsph, hph⟩ := exists_obj_of_jOfObj (m.get_pitchHand hwf)
    unfold matchupFields
    rw [bind_ok_eq hb, bind_ok_eq (pget_obj fsb "id"),
      bind_ok_eq (pget_obj fsb "fullName"), bind_ok_eq hbs,
      bind_ok_eq (pget_obj fsbs "code"), bind_ok_eq hp,
      bind_ok_eq (pget_obj fsp "id"), bind_ok_eq (pget_obj fsp "fullName"),
      bind_ok_eq hph, bind_ok_eq (pget_obj fsph "code")]
    rfl

theorem detailsFields_total (o : Option SDetails)
    (hwf : (match o with | some d => d.wf | none => true) = true) :
    (detailsFields (jOfDetails o)).isOk = true := by
  cases o with
  | none => rfl
  | some d =>
    show (detailsFields d.toJ).isOk = true
    obtain ⟨fst, ht⟩ := exists_obj_of_jOfObj (d.get_typeBlock hwf)
    have hobj : ∃ fs, d.toJ = J.obj fs := ⟨_, rfl⟩
    obtain ⟨fs0, hfs0⟩ := hobj
    unfold detailsFields
    rw [hfs0] at ht ⊢
    rw [bind_ok_eq (pget_obj fs0 "description"),
      bind_ok_eq (pget_obj fs0 "code"), bind_ok_eq (pget_obj fs0 "isInPlay"),
      bind_ok_eq (pget_obj fs0 "isStrike"), bind_ok_eq (pget_obj fs0 "isBall"),
      bind_ok_eq (pget_obj fs0 "hasReview"), bind_ok_eq ht,
      bind_ok_eq (pget_obj fst "code"),
      bind_ok_eq (pget_obj fst "description")]
    rfl

theorem getPitchData_total (o : Option SPitchData)
    (hwf : (match o with | some p => p.wf | none => true) = true) :
    (getPitchData (jOfPitch o)).isOk = true := by
  cases o with
  | none => rfl
  | some p =>
    show (getPitchData p.toJ).isOk = true
    obtain ⟨fsc, hc⟩ := exists_obj_of_jOfObj (p.get_pitch_coordinates hwf)
    obtain ⟨fsb, hb⟩ := exists_obj_of_jOfObj (p.get_breaks hwf)
    unfold getPitchData
    rw [bind_ok_eq hc, bind_ok_eq hb]
    rfl

theorem getHitData_total (o : Option SHitData)
    (hwf : (match o with | some h => h.wf | none => true) = true) :
    (getHitData (jOfHit o)).isOk = true := by
  cases o with
  | none => rfl
  | some h =>
    show (getHitData h.toJ).isOk = true
    obtain ⟨fsc, hc⟩ := exists_obj_of_jOfObj (h.get_hit_coordinates hwf)
    unfold getHitData
    rw [bind_ok_eq hc]
    rfl

theorem eventTailFields_total (e : SEvent) :
    (eventTailFields e.toJ).isOk = true := rfl

theorem pindex_jOfEvents (evs : List SEvent) (i : Nat) (hlt : i < evs.length) :
    pindex (jOfEvents (some evs)) i = .ok ((evs.get ⟨i, hlt⟩).toJ) := by
  show pindex (J.arr (evs.map SEvent.toJ)) i = _
  rw [pindex_arr]
  have hmap : (evs.map SEvent.toJ).get? i = some ((evs.get ⟨i, hlt⟩).toJ) := by
    rw [List.get?_map, List.get?_eq_get hlt]
    rfl
  rw [hmap]

theorem getTeamData_total (oab : Option (List (String × J))) (p : SPlay)
    (hwf : p.wf = true) :
    (getTeamData (jOfObj oab) p.toJ).isOk = true := by
  obtain ⟨fsa, hfa⟩ := jOfObj_obj oab
  rw [hfa]
  obtain ⟨fsbt, hbt⟩ :=
    exists_obj_of_jOfObj (jOfTeams_get_away
      (teamsBlockTeams (gameRefTeamsBlock p.game)))
  obtain ⟨fspt, hpt⟩ :=
    exists_obj_of_jOfObj (jOfTeams_get_home
      (teamsBlockTeams (gameRefTeamsBlock p.game)))
  unfold getTeamData
  rw [bind_ok_eq (p.get_game hwf), bind_ok_eq (jOfGameRef_get p.game),
    bind_ok_eq (pget_obj fsa "isTopInning"),
    bind_ok_eq (jOfTeamsBlock_get (gameRefTeamsBlock p.game))]
  cases htr : truthy (objGet fsa "isTopInning" J.null)
  · simp only [Bool.false_eq_true, reduceIte]
    rw [bind_ok_eq hpt, bind_ok_eq (pget_obj fspt "abbreviation"),
      bind_ok_eq (pget_obj fspt "id"), bind_ok_eq hbt,
      bind_ok_eq (pget_obj fsbt "abbreviation"),
      bind_ok_eq (pget_obj fsbt "id")]
    rfl
  · simp only [reduceIte]
    rw [bind_ok_eq hbt, bind_ok_eq (pget_obj fsbt "abbreviation"),
      bind_ok_eq (pget_obj fsbt "id"), bind_ok_eq hpt,
      bind_ok_eq (pget_obj fspt "abbreviation"),
      bind_ok_eq (pget_obj fspt "id")]
    rfl

theorem getCountData_total (p : SPlay) (hwfP : p.wf = true) (e : SEvent)
    (hwfE : e.wf = true) (n : Nat)
    (hrange : (n == 0) = false →
      ∃ evs, p.playEvents = some evs ∧ evs.all SEvent.wf = true ∧
        n - 1 < evs.length) :
    (getCountData p.toJ e.toJ n).isOk = true := by
  obtain ⟨fsc, hfsc⟩ := jOfObj_obj e.count
  unfold getCountData
  rw [bind_ok_eq (p.get_playEvents hwfP), bind_ok_eq (e.get_count hwfE), hfsc]
  cases hn0 : n == 0
  · obtain ⟨evs, hevs, hall, hlt⟩ := hrange hn0
    rw [hevs]
    simp only [Bool.false_eq_true, reduceIte]
    have hwfprev : (evs.get ⟨n - 1, hlt⟩).wf = true :=
      (List.all_eq_true.mp hall) _ (evs.get_mem _ hlt)
    obtain ⟨fsp, hfsp⟩ := jOfObj_obj (evs.get ⟨n - 1, hlt⟩).count
    rw [bind_ok_eq (pindex_jOfEvents evs (n - 1) hlt),
      bind_ok_eq ((evs.get ⟨n - 1, hlt⟩).get_count hwfprev), hfsp]
    rfl
  · simp only [reduceIte]
    rfl

theorem getAbResult_total (p : SPlay) (hwf : p.wf = true) (n : Nat)
    (last : Int) :
    (getAbResult p.toJ n last).isOk = true := by
  obtain ⟨fsr, hfsr⟩ := jOfObj_obj p.result
  unfold getAbResult
  rw [bind_ok_eq (p.get_result hwf), hfsr]
  cases hc : (n : Int) == last
  · simp only [Bool.false_eq_true, reduceIte]
    rfl
  · simp only [reduceIte]
    rfl

theorem extractEventData_total (p : SPlay) (hwfP : p.wf = true) (e : SEvent)
    (hwfE : e.wf = true) (n : Nat) (es : List J)
    (hrange : (n == 0) = false →
      ∃ evs, p.playEvents = some evs ∧ evs.all SEvent.wf = true ∧
        n - 1 < evs.length) :
    (extractEventData p.toJ e.toJ n es).isOk = true := by
  have hP := hwfP
  unfold SPlay.wf at hP
  simp only [Bool.and_eq_true] at hP
  have hE := hwfE
  unfold SEvent.wf at hE
  simp only [Bool.and_eq_true] at hE
  obtain ⟨mf, hmf⟩ := isOk_exists (matchupFields_total p.matchup hP.1.2)
  obtain ⟨tf, htf⟩ := isOk_exists (getTeamData_total p.about p hwfP)
  obtain ⟨cf, hcf⟩ := isOk_exists (getCountData_total p hwfP e hwfE n hrange)
  obtain ⟨df, hdf⟩ := isOk_exists (detailsFields_total e.details hE.1.1.2)
  obtain ⟨pf, hpf⟩ := isOk_exists (getPitchData_total e.pitchData hE.1.2)
  obtain ⟨hf, hhf⟩ := isOk_exists (getHitData_total e.hitData hE.2)
  obtain ⟨ef, hef⟩ := isOk_exists (eventTailFields_total e)
  obtain ⟨af, haf⟩ :=
    isOk_exists (getAbResult_total p hwfP n ((es.length : Int) - 1))
  unfold extractEventData
  rw [bind_ok_eq (p.get_matchup hwfP), bind_ok_eq (p.get_about hwfP),
    bind_ok_eq (e.get_details hwfE), bind_ok_eq hmf, bind_ok_eq htf,
    bind_ok_eq hcf, bind_ok_eq hdf, bind_ok_eq (e.get_pitchData hwfE),
    bind_ok_eq hpf, bind_ok_eq (e.get_hitData hwfE), bind_ok_eq hhf,
    bind_ok_eq hef, bind_ok_eq haf]
  rfl

theorem extractWalkData_total (p : SPlay) (hwfP : p.wf = true) (e : SEvent)
    (hwfE : e.wf = true) (gd : J) :
    (extractWalkData p.toJ e.toJ gd).isOk = true := by
  have hP := hwfP
  unfold SPlay.wf at hP
  simp only [Bool.and_eq_true] at hP
  obtain ⟨mf, hmf⟩ := isOk_exists (matchupFields_total p.matchup hP.1.2)
  obtain ⟨tf, htf⟩ := isOk_exists (getTeamData_total p.about p hwfP)
  obtain ⟨fsc, hfsc⟩ := jOfObj_obj e.count
  obtain ⟨ef, hef⟩ := isOk_exists (eventTailFields_total e)
  obtain ⟨fsr, hfsr⟩ := jOfObj_obj p.result
  unfold extractWalkData
  rw [bind_ok_eq (p.get_matchup hwfP), bind_ok_eq (p.get_about hwfP),
    bind_ok_eq (e.get_count hwfE), bind_ok_eq hmf, bind_ok_eq htf, hfsc,
    bind_ok_eq (pget_obj fsc "strikes"), bind_ok_eq (pget_obj fsc "balls"),
    bind_ok_eq (pget_obj fsc "outs"), bind_ok_eq hef,
    bind_ok_eq (p.get_result hwfP), hfsr,
    bind_ok_eq (pget_obj fsr "event"), bind_ok_eq (pget_obj fsr "eventType")]
  rfl

theorem classifyStep_total (p : SPlay) (hwfP : p.wf = true) (e : SEvent)
    (hwfE : e.wf = true) (gd : J) (n : Nat) (es : List J)
    (hrange : (n == 0) = false →
      ∃ evs, p.playEvents = some evs ∧ evs.all SEvent.wf = true ∧
        n - 1 < evs.length) :
    (classifyStep p.toJ gd e.toJ n es).isOk = true := by
  obtain ⟨vip, hip⟩ := pget_of_obj (⟨_, rfl⟩ : ∃ fs, e.toJ = J.obj fs) "isPitch"
  unfold classifyStep
  rw [bind_ok_eq hip]
  cases htr : truthy vip
  · simp only [Bool.false_eq_true, reduceIte]
    rw [bind_ok_eq (e.get_details hwfE)]
    obtain ⟨bc, hbc⟩ := jOfDetails_hasKey e.details "call"
    rw [bind_ok_eq hbc]
    cases bc
    · simp only [Bool.false_eq_true, reduceIte]
      rw [bind_ok_eq (e.get_count hwfE)]
      obtain ⟨vb, hvb⟩ := jOfObj_pget e.count "balls"
      rw [bind_ok_eq hvb]
      cases hj4 : jeqInt vb 4
      · simp only [Bool.false_eq_true, reduceIte]
        rfl
      · simp only [reduceIte]
        obtain ⟨r, hr⟩ := isOk_exists (extractWalkData_total p hwfP e hwfE gd)
        rw [bind_ok_eq hr]
        rfl
    · simp only [reduceIte]
      obtain ⟨r, hr⟩ :=
        isOk_exists (extractEventData_total p hwfP e hwfE n es hrange)
      rw [bind_ok_eq hr]
      rfl
  · simp only [reduceIte]
    rw [bind_ok_eq (show (pure true : Except Unit Bool) = .ok true from rfl)]
    simp only [reduceIte]
    obtain ⟨r, hr⟩ :=
      isOk_exists (extractEventData_total p hwfP e hwfE n es hrange)
    rw [bind_ok_eq hr]
    rfl

theorem playLoopAux_total (p : SPlay) (hwfP : p.wf = true) (gd : J)
    (full : List SEvent) (hfull : p.playEvents = some full)
    (hall : full.all SEvent.wf = true) :
    ∀ (suffix : List SEvent) (n : Nat), n + suffix.length = full.length →
      suffix.all SEvent.wf = true →
      (playLoopAux p.toJ gd (full.map SEvent.toJ)
        (suffix.map SEvent.toJ) n).isOk = true := by
  intro suffix
  induction suffix with
  | nil => intro n _ _; rfl
  | cons e rest ih =>
    intro n hlen hwfs
    simp only [List.all_cons, Bool.and_eq_true] at hwfs
    have hrange : (n == 0) = false →
        ∃ evs, p.playEvents = some evs ∧ evs.all SEvent.wf = true ∧
          n - 1 < evs.length := by
      intro hn0
      refine ⟨full, hfull, hall, ?_⟩
      have hne : n ≠ 0 := by simpa using hn0
      simp only [List.length_cons] at hlen
      omega
    obtain ⟨o, ho⟩ := isOk_exists
      (classifyStep_total p hwfP e hwfs.1 gd n (full.map SEvent.toJ) hrange)
    simp only [List.map_cons, playLoopAux]
    rw [bind_ok_eq ho]
    obtain ⟨tailr, htail⟩ := isOk_exists (ih (n + 1)
      (by simp only [List.length_cons] at hlen; omega) hwfs.2)
    rw [bind_ok_eq htail]
    rfl

theorem extractPlayData_total (p : SPlay) (hwfP : p.wf = true) (gd : J) :
    (extractPlayData p.toJ gd).isOk = true := by
  have hP := hwfP
  unfold SPlay.wf at hP
  simp only [Bool.and_eq_true] at hP
  unfold extractPlayData
  rw [bind_ok_eq (p.get_playEvents hwfP)]
  cases hpe : p.playEvents with
  | none => rfl
  | some evs =>
    have hall : evs.all SEvent.wf = true := by
      have h2 := hP.2
      rw [hpe] at h2
      exact h2
    exact playLoopAux_total p hwfP gd evs hpe hall evs 0 (by simp) hall

theorem playsLoop_total (gd : J) : ∀ (ps : List SPlay),
    ps.all SPlay.wf = true →
    (playsLoop gd (ps.map SPlay.toJ)).isOk = true := by
  intro ps
  induction ps with
  | nil => intro _; rfl
  | cons p rest ih =>
    intro hall
    simp only [List.all_cons, Bool.and_eq_true] at hall
    obtain ⟨rs, hrs⟩ := isOk_exists (extractPlayData_total p hall.1 gd)
    simp only [List.map_cons, playsLoop]
    rw [bind_ok_eq hrs]
    obtain ⟨ts, hts⟩ := isOk_exists (ih hall.2)
    rw [bind_ok_eq hts]
    rfl

theorem liveData_all_wf (g : SGame) (hwf : g.wf = true) (ps : List SPlay)
    (hap : playsBlockAll (liveDataPlays g.liveData) = some ps) :
    ps.all SPlay.wf = true := by
  revert hwf hap
  obtain ⟨gdat, ldat, lv⟩ := g
  cases ldat with
  | none =>
    intro hwf hap
    have h : (none : Option (List SPlay)) = some ps := hap
    exact Option.noConfusion h
  | some ld =>
    obtain ⟨pbo⟩ := ld
    cases pbo with
    | none =>
      intro hwf hap
      have h : (none : Option (List SPlay)) = some ps := hap
      exact Option.noConfusion h
    | some pb =>
      obtain ⟨apo⟩ := pb
      cases apo with
      | none =>
        intro hwf hap
        have h : (none : Option (List SPlay)) = some ps := hap
        exact Option.noConfusion h
      | some qs =>
        intro hwf hap
        have h4 : some qs = some ps := hap
        unfold SGame.wf at hwf
        simp only [Bool.and_eq_true] at hwf
        injection h4 with h4e
        rw [← h4e]
        exact hwf.2

theorem noPlays_empty (g : SGame) (hnp : g.noPlays = true) :
    playsBlockAll (liveDataPlays g.liveData) = none ∨
    playsBlockAll (liveDataPlays g.liveData) = some [] := by
  revert hnp
  obtain ⟨gdat, ldat, lv⟩ := g
  cases ldat with
  | none => intro _; left; rfl
  | some ld =>
    obtain ⟨pbo⟩ := ld
    cases pbo with
    | none => intro _; left; rfl
    | some pb =>
      obtain ⟨apo⟩ := pb
      cases apo with
      | none => intro _; left; rfl
      | some qs =>
        intro hnp
        have h5 : qs.isEmpty = true := hnp
        have h6 : qs = [] := by simpa [List.isEmpty_iff] using h5
        right
        rw [h6]
        rfl

def jListPlays : Option (List SPlay) → List J
  | some ps => ps.map SPlay.toJ
  | none => []

theorem gameToDf_eq (g : SGame) (hwf : g.wf = true) :
    ∃ vpk vdt, gameToDf g.toJ =
      (playsLoop g.toJ (jListPlays (playsBlockAll (liveDataPlays g.liveData)))
        >>= fun rows => pure (rows.map (fun r =>
          dictInsert (dictInsert r "game_id" (RVal.j vpk))
            "game_date" (RVal.j vdt)))) := by
  have hw := hwf
  unfold SGame.wf at hw
  simp only [Bool.and_eq_true] at hw
  obtain ⟨vpk, hpk⟩ := pget_of_obj (⟨_, rfl⟩ : ∃ fs, g.toJ = J.obj fs) "gamePk"
  obtain ⟨vdt, hdt⟩ := jOfObj_pget (gameDataDatetime g.gameData) "officialDate"
  refine ⟨vpk, vdt, ?_⟩
  unfold gameToDf
  rw [bind_ok_eq hpk, bind_ok_eq (g.get_gameData hwf),
    bind_ok_eq (jOfGameData_get g.gameData hw.1.2), bind_ok_eq hdt,
    bind_ok_eq (g.get_liveData hwf), bind_ok_eq (jOfLiveData_get g.liveData),
    bind_ok_eq (jOfPlaysBlock_get (liveDataPlays g.liveData))]
  cases hap : playsBlockAll (liveDataPlays g.liveData) with
  | none => rfl
  | some ps => rfl

theorem gameToDf_total (g : SGame) (hwf : g.wf = true) :
    (gameToDf g.toJ).isOk = true ∧
    (g.noPlays = true → gameToDf g.toJ = .ok []) := by
  obtain ⟨vpk, vdt, heq⟩ := gameToDf_eq g hwf
  constructor
  · rw [heq]
    cases hap : playsBlockAll (liveDataPlays g.liveData) with
    | none => rfl
    | some ps =>
      have hall := liveData_all_wf g hwf ps hap
      obtain ⟨rows, hrows⟩ := isOk_exists (playsLoop_total g.toJ ps hall)
      rw [show jListPlays (some ps) = ps.map SPlay.toJ from rfl,
        bind_ok_eq hrows]
      rfl
  · intro hnp
    rw [heq]
    rcases noPlays_empty g hnp with h | h
    · rw [h]; rfl
    · rw [h]; rfl

def c5MinEvent : SEvent := ⟨none, none, none, none, [("isPitch", J.b true)]⟩

def c5MinPlay : SPlay := ⟨none, none, none, none, some [c5MinEvent], []⟩

def c5MinDoc : SGame := ⟨none, some ⟨some ⟨some [c5MinPlay]⟩⟩, []⟩

def c5MissingOK (r : Record) : Bool :=
  ((pitchRecordKeys.filter
      (fun k => !(k == "strikes" || k == "balls" || k == "is_pitch"))) ++
    ["game_id", "game_date"]).all
    (fun k => match recGet r k with | some v => isMissing v | none => false)

/-- C5: flattening a GameDocument never raises due to absent leaf
fields.  Formalised over the structured partial-document family
`SGame` (every nested container optional, arbitrary extra leaves,
with the well-formedness side condition `SGame.wf` saying leaf lists
do not shadow the nested container keys): for every well-formed
document, `gameToDf` succeeds, and succeeds with the empty row list
when the document has no plays; moreover on the minimal one-pitch
document with every leaf absent, every derived record field other
than the populated `strikes`, `balls` and `is_pitch` resolves to the
missing-value marker. -/
theorem flatten_total_on_partial_documents :
    (∀ g : SGame, g.wf = true → (gameToDf g.toJ).isOk = true ∧
      (g.noPlays = true → gameToDf g.toJ = .ok [])) ∧
    (match gameToDf c5MinDoc.toJ with
     | .ok [r] => c5MissingOK r
     | _ => false) = true :=
  ⟨fun g hwf => gameToDf_total g hwf, by rfl⟩

theorem c5_witness :
    (SGame.mk none none []).wf = true ∧
    gameToDf (SGame.mk none none []).toJ = Except.ok [] :=
  ⟨by decide,
   (flatten_total_on_partial_documents.1 ⟨none, none, []⟩ (by decide)).2 rfl⟩
